import Mathlib

/-!
Verification of the ZilaZol retail-price crawler against its specification.

The Python modules relevant to the verified claims are shallowly embedded
below:

* `crawler/archive_utils.py` — container sniffing and XML entry extraction
  (`sniff_kind`, `iter_xml_entries`); the gzip and zip codecs themselves are
  the Python standard library, so they enter the embedding as function
  parameters (`gunzip`, `unzip`).
* `Supers/crawler/parsers.py` — schema-tolerant XML parsing
  (`parse_prices_xml` and its helpers); an XML document is embedded as a
  tree of elements with tag, text and children.
* `Supers/crawler/core.py` — the per-retailer orchestrator
  (`crawl_retailer`: stable priority sort, per-source loop, short-circuit)
  and the bounded-concurrency controller (`run_all`), the latter as a
  transition system over task states guarded by a semaphore of capacity 3.
* `Supers/crawler/adapters/generic.py` — date extraction and the
  today-filter of link discovery, and the download/dedup loop of
  `generic_adapter`.
* `crawler/adapters/publishedprices.py` and
  `Supers/crawler/adapters/bina.py` — their per-candidate today-filters.
* `Supers/crawler/download.py` — `fetch_url` / `pick_filename`.
* `ZilaZol/crawler/db.py` — the persistence gateway (`upsert_store`,
  `upsert_product`, `save_parsed_prices`) over an in-memory table state.

Machine-level details that the claims do not touch (logging, screenshots,
actual HTTP, SQL connection pooling, datetime clock reads) are represented
by explicit parameters or omitted fields, as noted at each definition.
-/

/-- A byte string (each element a byte value 0..255). -/
abbrev Bytes := List Nat

/-- `GZIP_MAGIC = b"\x1f\x8b"` from `crawler/archive_utils.py`. -/
def GZIP_MAGIC : Bytes := [0x1f, 0x8b]

/-- `ZIP_MAGIC = b"PK"` from `crawler/archive_utils.py`. -/
def ZIP_MAGIC : Bytes := [0x50, 0x4b]

/-- `sniff_kind(data)` from `crawler/archive_utils.py`: detect container
type by magic bytes (ignores filename). -/
def sniff_kind (data : Bytes) : String :=
  if GZIP_MAGIC.isPrefixOf data then "gz"
  else if ZIP_MAGIC.isPrefixOf data then "zip"
  else "raw"

/-- `data[:200]` — the first 200 bytes of a blob. -/
def firstBytes200 (data : Bytes) : Bytes := data.take 200

/-- ASCII lowercasing of a string (Python `str.lower` on the ASCII data
seen here), written over the character list so that it evaluates. -/
def lowerStr (s : String) : String := String.mk (s.data.map Char.toLower)

/-- `s.endswith(suffix)`. -/
def endsWithStr (s suffix : String) : Bool := suffix.data.isSuffixOf s.data

/-- `sub in s` — substring containment (Python `in`). -/
def containsStr (hay sub : String) : Bool := decide (sub.data <:+: hay.data)

/-- Python `s.strip()` — drop leading and trailing whitespace. -/
def pyStrip (s : String) : String :=
  String.mk (((s.data.dropWhile Char.isWhitespace).reverse.dropWhile Char.isWhitespace).reverse)

/-- Fuel-driven core of `replaceAll`; the fuel is the input length, which
bounds the number of consumed characters. -/
def replaceAllFuel (pat rep : List Char) : Nat → List Char → List Char
  | _, [] => []
  | 0, cs => cs
  | fuel + 1, c :: cs =>
      if pat.isPrefixOf (c :: cs) ∧ pat ≠ [] then
        rep ++ replaceAllFuel pat rep fuel (cs.drop (pat.length - 1))
      else c :: replaceAllFuel pat rep fuel cs

/-- Python `s.replace(pat, rep)` — replace every non-overlapping
occurrence, left to right. -/
def replaceAll (s pat rep : String) : String :=
  String.mk (replaceAllFuel pat.data rep.data s.data.length s.data)

/-- Split a character list on a separator character (Python
`s.split(sep)` / `String.splitOn` for a one-character separator). -/
def splitOnChar (sep : Char) : List Char → List (List Char)
  | [] => [[]]
  | c :: cs =>
      if c = sep then [] :: splitOnChar sep cs
      else
        match splitOnChar sep cs with
        | [] => [[c]]
        | h :: t => (c :: h) :: t

/-- String-level wrapper of `splitOnChar`. -/
def splitOnC (sep : Char) (s : String) : List String :=
  (splitOnChar sep s.data).map String.mk


/-- `iter_xml_entries(data, filename_hint)` from `crawler/archive_utils.py`.

The gzip and zip decoders are the Python standard library (`gzip.GzipFile`
and `zipfile.ZipFile`), external to this repository; they are passed in as
functions. `gunzip data = some x` models a successful gzip decompression
yielding `x`, `none` models the decompressor raising. `unzip data = some
entries` models a successful open of the archive with its member list (each
member's name and bytes), `none` models `zipfile` raising. -/
def iter_xml_entries (gunzip : Bytes → Option Bytes)
    (unzip : Bytes → Option (List (String × Bytes)))
    (data : Bytes) (filename_hint : String) : List (String × Bytes) :=
  let k := sniff_kind data
  -- gz branch: on success a single entry named from the hint with ".gz"
  -- and ".zip" stripped (empty name falls back to "data.xml").
  let gzResult : Option (List (String × Bytes)) :=
    if k = "gz" then
      match gunzip data with
      | some xml_bytes =>
          let n := replaceAll (replaceAll filename_hint ".gz" "") ".zip" ""
          some [(if n = "" then "data.xml" else n, xml_bytes)]
      | none => none
    else none
  match gzResult with
  | some entries => entries
  | none =>
    -- zip branch: guarded by `k == "zip" or data.startswith(ZIP_MAGIC)`.
    let zipResult : Option (List (String × Bytes)) :=
      if k = "zip" ∨ ZIP_MAGIC.isPrefixOf data then
        match unzip data with
        | some members =>
            some (members.filter (fun m => endsWithStr (lowerStr m.1) ".xml"))
        | none => none
      else none
    match zipResult with
    | some entries => entries
    | none =>
      -- raw best effort: first 200 bytes must contain '<' and '>'.
      if 0x3c ∈ firstBytes200 data ∧ 0x3e ∈ firstBytes200 data then
        [(if filename_hint = "" then "data.xml" else filename_hint, data)]
      else []

/-- An XML element as seen by `lxml.etree` in `Supers/crawler/parsers.py`:
a tag, optional text, and child elements in document order. -/
inductive XElem where
  | mk (tag : String) (text : Option String) (children : List XElem)

/-- Tag of an element. -/
def XElem.tag : XElem → String
  | .mk t _ _ => t

/-- Text of an element (`None` or a string, as in lxml). -/
def XElem.text : XElem → Option String
  | .mk _ x _ => x

/-- Child elements of an element. -/
def XElem.children : XElem → List XElem
  | .mk _ _ cs => cs

mutual

/-- An element followed by its proper descendants, in document order. -/
def withDescs : XElem → List XElem
  | .mk t x cs => .mk t x cs :: xdescs cs

/-- All proper descendants of the elements of a list, in document order;
`xdescs e.children` is what `e.findall(".//*")` traverses. -/
def xdescs : List XElem → List XElem
  | [] => []
  | e :: rest => withDescs e ++ xdescs rest

end

/-- `e.findall(".//TAG")` — descendants of `e` with the given tag, in
document order. -/
def findallDesc (e : XElem) (tag : String) : List XElem :=
  (xdescs e.children).filter (fun c => c.tag = tag)

/-- `e.find(TAG)` for a plain tag — first direct child with that tag. -/
def findChild (e : XElem) (tag : String) : Option XElem :=
  e.children.find? (fun c => c.tag = tag)

/-- `e.find(".//TAG")` — first descendant with that tag. -/
def findDesc (e : XElem) (tag : String) : Option XElem :=
  (xdescs e.children).find? (fun c => c.tag = tag)

/-- `_first_text(elem, *paths)` from `Supers/crawler/parsers.py`: for each
path in order, look up the first direct child with that tag; if it exists
and its text is non-empty and strips to a non-empty string, return the
stripped text; otherwise move to the next path. -/
def first_text (e : XElem) (paths : List String) : Option String :=
  paths.findSome? fun p =>
    match findChild e p with
    | some c =>
        match c.text with
        | some t => if pyStrip t = "" then none else some (pyStrip t)
        | none => none
    | none => none

/-- Python truthiness of an optional string (`None` and `""` are falsy). -/
def optTruthy : Option String → Bool
  | none => false
  | some s => s ≠ ""

/-- Python `a or b` on optional strings: `a` when truthy, else `b`. -/
def pyOr (a b : Option String) : Option String :=
  if optTruthy a then a else b

/-- Digit list to number (most significant first). -/
def digitsToNat (ds : List Char) : Nat :=
  ds.foldl (fun n c => 10 * n + (c.toNat - 48)) 0

/-- `float(s)` from Python, restricted to finite decimal notation
(optional sign, digits with at most one dot, optional exponent), with the
exact value kept as a rational. `none` models `float` raising
`ValueError`. The textual forms `inf`/`nan` and underscore digit
separators accepted by Python are not modelled; they do not occur in the
price data these parsers handle, and floating-point rounding is modelled
by exact rational arithmetic. -/
def pyFloat? (s : String) : Option ℚ :=
  let cs := (pyStrip s).data
  let (sgn, cs) : ℤ × List Char :=
    match cs with
    | '+' :: r => (1, r)
    | '-' :: r => (-1, r)
    | _ => (1, cs)
  let ip := cs.takeWhile Char.isDigit
  let cs := cs.dropWhile Char.isDigit
  let (fp, cs) : List Char × List Char :=
    match cs with
    | '.' :: r => (r.takeWhile Char.isDigit, r.dropWhile Char.isDigit)
    | _ => ([], cs)
  if ip.length + fp.length = 0 then none
  else
    let mant : ℤ := sgn * ((digitsToNat ip) * 10 ^ fp.length + digitsToNat fp)
    let value : ℤ → ℚ := fun exp10 =>
      if 0 ≤ exp10 then mkRat (mant * 10 ^ exp10.toNat) 1
      else mkRat mant (10 ^ (-exp10).toNat)
    match cs with
    | [] => some (value (-(fp.length : ℤ)))
    | e :: r =>
        if e = 'e' ∨ e = 'E' then
          let (esgn, r) : ℤ × List Char :=
            match r with
            | '+' :: r2 => (1, r2)
            | '-' :: r2 => (-1, r2)
            | _ => (1, r)
          let ed := r.takeWhile Char.isDigit
          let rest := r.dropWhile Char.isDigit
          if ed = [] ∨ rest ≠ [] then none
          else some (value (esgn * digitsToNat ed - (fp.length : ℤ)))
        else none

/-- A normalized price row as produced by `parse_prices_xml` in
`Supers/crawler/parsers.py` (promotion rows leave the metadata fields at
their `row.get` defaults: `none` / `false`). -/
structure PriceRow where
  name : Option String
  barcode : String
  date : Option String
  price : String
  company : String
  store_id : Option String
  is_on_sale : Bool
  brand : Option String
  unit : Option String
  quantity : Option ℚ
  is_weighted : Bool
  image_url : Option String
deriving DecidableEq

/-- The store metadata record returned by `parse_prices_xml` (the empty
dictionary corresponds to all fields `none`). -/
structure StoreMeta where
  store_id : Option String
  name : Option String
  city : Option String
  address : Option String
deriving DecidableEq

/-- The all-`none` metadata (the `{}` returned on an XML parse failure). -/
def StoreMeta.empty : StoreMeta := ⟨none, none, none, none⟩

/-- Element-name variants probed for a store name. -/
def nameTags : List String :=
  ["StoreName", "StoreNm", "Name", "StoreName", "שם_סניף", "סניף", "שם"]

/-- Element-name variants probed for a city. -/
def cityTags : List String := ["City", "CityName", "StoreCity", "עיר", "יישוב"]

/-- Element-name variants probed for an address. -/
def addressTags : List String :=
  ["Address", "Street", "StoreAddress", "AddressLine1", "FullAddress",
   "Location", "StreetAddress", "Addr", "StoreLocation",
   "כתובת", "רחוב", "מיקום", "כתובת_סניף"]

/-- Element-name variants probed for an image URL. -/
def imageTags : List String :=
  ["ItemImage", "Image", "ImageUrl", "ImageURL", "Picture", "PictureUrl",
   "Photo", "PhotoUrl", "תמונה", "קישור_תמונה"]

/-- The price decision of the `<Item>` loop of `parse_prices_xml`
(`Supers/crawler/parsers.py`, lines 159–190): given the probed regular and
promotional price strings, choose the price string and the is-on-sale flag,
or `none` when the item is skipped for lack of any price. -/
def priceDecision (regular_price_str promotion_price_str : Option String) :
    Option (String × Bool) :=
  match promotion_price_str, regular_price_str with
  | some p, some r =>
      match pyFloat? r, pyFloat? p with
      | some regular_price, some promotion_price =>
          if promotion_price < regular_price then some (p, true)
          else some (r, false)
      | _, _ => some (r, false)
  | some p, none => some (p, true)
  | none, some r => some (r, false)
  | none, none => none

/-- One iteration of the `<Item>` loop of `parse_prices_xml`
(`Supers/crawler/parsers.py`): `none` when the item contributes no row. -/
def priceItemRow (effective_store_id : Option String) (company : String)
    (it : XElem) : Option PriceRow :=
  let barcode := first_text it ["ItemCode", "Barcode"]
  let regular_price_str := first_text it ["ItemPrice", "Price", "RegularPrice", "ListPrice"]
  let promotion_price_str := first_text it ["PromotionPrice", "DiscountedPrice", "SalePrice", "DiscountPrice"]
  match priceDecision regular_price_str promotion_price_str with
  | none => none
  | some (price_str, is_on_sale) =>
      match barcode with
      | none => none
      | some bc =>
          let qty := (first_text it ["Quantity", "Content", "QtyInPackage"]).bind pyFloat?
          let weighted_str := first_text it ["bIsWeighted", "BisWeighted"]
          let is_weighted :=
            match weighted_str with
            | some w => w.toLower = "1" ∨ w.toLower = "true" ∨ w.toLower = "y"
            | none => false
          some
            { name := first_text it ["ItemName", "ItemNm", "ItemDescription", "Description"]
              barcode := bc
              date := first_text it ["PriceUpdateDate", "UpdateDate"]
              price := price_str
              company := company
              store_id := effective_store_id
              is_on_sale := is_on_sale
              brand := first_text it ["ManufacturerName", "BrandName"]
              unit := first_text it ["UnitQty", "UnitOfMeasure"]
              quantity := qty
              is_weighted := is_weighted
              image_url := first_text it imageTags }

/-- The rows contributed by one `<Promotion>` node (`parse_prices_xml`,
promotion loop): one row per `<Item>` child carrying a barcode, with
`is_on_sale` fixed to true. -/
def promoRows (effective_store_id : Option String) (company : String)
    (promo : XElem) : List PriceRow :=
  match first_text promo ["DiscountedPrice", "DiscountRate"] with
  | none => []
  | some price =>
      let date := first_text promo ["PromotionUpdateDate", "UpdateDate", "PromotionStartDate"]
      (findallDesc promo "Item").filterMap fun item =>
        match first_text item ["ItemCode", "Barcode"] with
        | none => none
        | some bc =>
            some
              { name := none
                barcode := bc
                date := date
                price := price
                company := company
                store_id := effective_store_id
                is_on_sale := true
                brand := none
                unit := none
                quantity := none
                is_weighted := false
                image_url := first_text item imageTags }

/-- The store-metadata extraction of `parse_prices_xml`: root-level probes,
overridden field-by-field by a `<Store>` descendant when present. -/
def extractStoreMeta (root : XElem) (store_id : Option String) : StoreMeta :=
  let base : StoreMeta :=
    { store_id := pyOr store_id (first_text root ["StoreId", "StoreID", "storeid"])
      name := first_text root nameTags
      city := first_text root cityTags
      address := first_text root addressTags }
  match findDesc root "Store" with
  | none => base
  | some store_elem =>
      -- Hebrew-only `nameTags` variant used inside the `<Store>` probe
      -- (the duplicated "StoreName" entry is absent there in the source).
      let n := first_text store_elem ["StoreName", "StoreNm", "Name", "שם_סניף", "סניף", "שם"]
      { store_id := match first_text store_elem ["StoreId", "StoreID", "storeid"] with
                    | some v => some v | none => base.store_id
        name := match n with | some v => some v | none => base.name
        city := match first_text store_elem cityTags with
                | some v => some v | none => base.city
        address := match first_text store_elem addressTags with
                   | some v => some v | none => base.address }

/-- `parse_prices_xml(xml_bytes, company, store_id)` from
`Supers/crawler/parsers.py`. The input is the parsed XML root; `none`
models `etree.fromstring` raising, which returns `([], {})`. -/
def parse_prices_xml (xml : Option XElem) (company : String)
    (store_id : Option String) : List PriceRow × StoreMeta :=
  match xml with
  | none => ([], StoreMeta.empty)
  | some root =>
      let store_metadata := extractStoreMeta root store_id
      let effective_store_id := pyOr store_metadata.store_id store_id
      let promo_rows :=
        (findallDesc root "Promotion").flatMap
          (promoRows effective_store_id company)
      let items :=
        let found := findallDesc root "Item"
        if found.isEmpty then root.children else found
      let item_rows := items.filterMap (priceItemRow effective_store_id company)
      (promo_rows ++ item_rows, store_metadata)

/-- A source descriptor from the retailer configuration
(`Supers/crawler/core.py`); `priority` is the value of
`s.get("priority", 0)`, so a missing key is the literal `0`, and the
optional fields carry `None` as `none`. -/
structure Source where
  url : String
  host : String
  priority : Int
  adapter : Option String
  creds_key : Option String
deriving DecidableEq

/-- A retailer entry as consumed by `crawl_retailer`
(`Supers/crawler/core.py`); `url`/`host` are the legacy single-URL
fallback fields. -/
structure Retailer where
  id : String
  name : String
  enabled : Bool
  sources : List Source
  url : String
  host : String
  adapter : Option String
  tenantKey : Option String
deriving DecidableEq

/-- Insert a source into a list already sorted by descending priority,
before the first element of lower-or-equal priority. Together with
`sortByPriorityDesc` this is the stable descending sort performed by
`sources.sort(key=lambda s: s.get("priority", 0), reverse=True)` in
`crawl_retailer` (CPython's sort is stable, also under `reverse=True`). -/
def insertByPriorityDesc (s : Source) : List Source → List Source
  | [] => [s]
  | t :: ts =>
      if t.priority ≤ s.priority then s :: t :: ts
      else t :: insertByPriorityDesc s ts

/-- Stable sort of the source list by descending priority. -/
def sortByPriorityDesc : List Source → List Source
  | [] => []
  | s :: ss => insertByPriorityDesc s (sortByPriorityDesc ss)

/-- The per-source loop of `crawl_retailer` (`Supers/crawler/core.py`,
lines 51–130): iterate the sorted sources, skip entries with an empty URL,
invoke the adapter (modelled by the oracle `run`, giving the
`files_downloaded` count of the source's `RetailerResult`), append the
result, and stop after the first source that downloaded at least one file.
The returned list holds, in order, exactly the sources for which a result
was produced, paired with their download counts. -/
def sourceLoop (run : Source → Nat) : List Source → List (Source × Nat)
  | [] => []
  | s :: rest =>
      if s.url = "" then sourceLoop run rest
      else
        let n := run s
        if 0 < n then [(s, n)]
        else (s, n) :: sourceLoop run rest

/-- `crawl_retailer(retailer, run_id)` from `Supers/crawler/core.py`,
restricted to its source-iteration behaviour: build the source list (with
the legacy single-URL fallback), sort by descending priority, and run
`sourceLoop`. Browser-context setup and teardown carry no observable state
for this claim and are omitted. -/
def crawl_retailer (run : Source → Nat) (r : Retailer) : List (Source × Nat) :=
  let sources :=
    if r.sources.isEmpty then
      if r.url = "" then []
      else [{ url := r.url, host := r.host, priority := 0,
              adapter := none, creds_key := none }]
    else r.sources
  sourceLoop run (sortByPriorityDesc sources)

/-- The state mutated by the download loop of `generic_adapter`
(`Supers/crawler/adapters/generic.py`, lines 220–257): the two dedup sets
(which `crawl_retailer` allocates once per retailer and passes to every
source's adapter call), the `skipped_dupes` and `files_downloaded`
counters of the `RetailerResult`, and the list of blobs handed to
`parse_from_blob` (the sole route by which a downloaded file reaches
parsing and snapshot persistence). The per-container counters and error
strings of `RetailerResult` do not interact with deduplication and are
omitted. -/
structure AdapterState where
  seen_hashes : List String
  seen_names : List String
  skipped_dupes : Nat
  files_downloaded : Nat
  processed : List (String × Bytes)
deriving DecidableEq

/-- One iteration of the download loop of `generic_adapter` on the fetched
content of one link: `none` models `fetch_url` returning no data (the
`if data is None: continue` branch). `md5` is `hashlib.md5(...).hexdigest`
from the standard library, passed as a parameter. -/
def processFetched (md5 : Bytes → String) (retailer_id : String)
    (st : AdapterState) (fetched : Option (Bytes × String)) : AdapterState :=
  match fetched with
  | none => st
  | some (data, filename) =>
      let md5_hash := md5 data
      if md5_hash ∈ st.seen_hashes then
        { st with skipped_dupes := st.skipped_dupes + 1 }
      else
        let normalized_name := retailer_id ++ "/" ++ lowerStr filename
        if normalized_name ∈ st.seen_names then
          { st with skipped_dupes := st.skipped_dupes + 1 }
        else
          { st with
            seen_hashes := md5_hash :: st.seen_hashes
            seen_names := normalized_name :: st.seen_names
            processed := st.processed ++ [(filename, data)]
            files_downloaded := st.files_downloaded + 1 }

/-- The download loop of `generic_adapter` over the fetched contents of a
run's links, in order. Because `crawl_retailer` passes the same two dedup
sets to every source of the retailer, a whole retailer run is `runLinks`
over the concatenation of the per-source link lists. -/
def runLinks (md5 : Bytes → String) (retailer_id : String)
    (st : AdapterState) (fetched : List (Option (Bytes × String))) :
    AdapterState :=
  fetched.foldl (processFetched md5 retailer_id) st

/-- A calendar date as compared by `datetime.date` equality. -/
structure PyDate where
  year : Nat
  month : Nat
  day : Nat
deriving DecidableEq

/-- Gregorian leap-year rule (as in Python's `datetime`). -/
def isLeapYear (y : Nat) : Bool :=
  y % 4 = 0 ∧ (y % 100 ≠ 0 ∨ y % 400 = 0)

/-- Days in a month (as validated by the `datetime` constructor). -/
def daysInMonth (y m : Nat) : Nat :=
  if m = 2 then (if isLeapYear y then 29 else 28)
  else if m = 4 ∨ m = 6 ∨ m = 9 ∨ m = 11 then 30
  else 31

/-- The `datetime(y, m, d)` constructor succeeds exactly on these values
(`MINYEAR = 1`, `MAXYEAR = 9999`). -/
def validDate (y m d : Nat) : Bool :=
  1 ≤ y ∧ y ≤ 9999 ∧ 1 ≤ m ∧ m ≤ 12 ∧ 1 ≤ d ∧ d ≤ daysInMonth y m

/-- `datetime.strptime(s, "%Y-%m-%d")` reduced to its date: `%Y` is
exactly four digits, `%m`/`%d` one or two digits within range, the whole
string must be consumed, and the constructor validates the day against the
month. -/
def strptimeISO? (s : String) : Option PyDate :=
  match splitOnC '-' s with
  | [y, m, d] =>
      if y.length = 4 ∧ y.data.all Char.isDigit ∧
         1 ≤ m.length ∧ m.length ≤ 2 ∧ m.data.all Char.isDigit ∧
         1 ≤ d.length ∧ d.length ≤ 2 ∧ d.data.all Char.isDigit then
        let yv := digitsToNat y.data
        let mv := digitsToNat m.data
        let dv := digitsToNat d.data
        if validDate yv mv dv then some ⟨yv, mv, dv⟩ else none
      else none
  | _ => none

/-- `is_today(date_str)` from `Supers/crawler/adapters/generic.py`, with
the current local date passed explicitly: parse as `YYYY-MM-DD` and
compare; any parse failure yields `false`. -/
def is_today (today : PyDate) (date_str : String) : Bool :=
  strptimeISO? date_str = some today

/-- A token of one of the fixed-shape date regexes: a digit or a literal
character. -/
inductive PatTok where
  | digit
  | lit (c : Char)

/-- Match a fixed-shape pattern at the start of the input, returning the
matched characters. -/
def matchAt : List PatTok → List Char → Option (List Char)
  | [], _ => some []
  | _ :: _, [] => none
  | .digit :: ps, c :: cs =>
      if c.isDigit then (matchAt ps cs).map (c :: ·) else none
  | .lit l :: ps, c :: cs =>
      if c = l then (matchAt ps cs).map (c :: ·) else none

/-- `re.search` for a fixed-shape pattern: the leftmost position where the
whole pattern matches, returning the matched substring. -/
def searchPat (p : List PatTok) : List Char → Option String
  | [] => (matchAt p []).map String.mk
  | c :: cs =>
      match matchAt p (c :: cs) with
      | some m => some (String.mk m)
      | none => searchPat p cs

/-- `n` consecutive digit tokens. -/
def dts (n : Nat) : List PatTok := List.replicate n .digit

/-- The `date_patterns` list of `extract_date_from_link`
(`Supers/crawler/adapters/generic.py`), in order: `YYYY-MM-DD`,
`DD-MM-YYYY`, `YYYYMMDD`, `DD/MM/YYYY`, `YYYY/MM/DD`, `DD.MM.YYYY`. -/
def date_patterns : List (List PatTok) :=
  [dts 4 ++ [.lit '-'] ++ dts 2 ++ [.lit '-'] ++ dts 2,
   dts 2 ++ [.lit '-'] ++ dts 2 ++ [.lit '-'] ++ dts 4,
   dts 8,
   dts 2 ++ [.lit '/'] ++ dts 2 ++ [.lit '/'] ++ dts 4,
   dts 4 ++ [.lit '/'] ++ dts 2 ++ [.lit '/'] ++ dts 2,
   dts 2 ++ [.lit '.'] ++ dts 2 ++ [.lit '.'] ++ dts 4]

/-- Normalization of a URL date match to `YYYY-MM-DD`
(`extract_date_from_link`, URL branch): keep ISO forms, reorder
day-first forms, expand `YYYYMMDD`. -/
def normalizeUrlDate (m : String) : Option String :=
  if m.data.contains '-' then
    match splitOnC '-' m with
    | [a, b, c] =>
        if a.length = 4 then some m
        else if c.length = 4 then some (c ++ "-" ++ b ++ "-" ++ a)
        else none
    | _ => none
  else if m.data.contains '/' then
    match splitOnC '/' m with
    | [a, b, c] =>
        if a.length = 4 then some (a ++ "-" ++ b ++ "-" ++ c)
        else if c.length = 4 then some (c ++ "-" ++ b ++ "-" ++ a)
        else none
    | _ => none
  else if m.data.contains '.' then
    match splitOnC '.' m with
    | [a, b, c] => if c.length = 4 then some (c ++ "-" ++ b ++ "-" ++ a) else none
    | _ => none
  else if m.length = 8 then
    some (String.mk (m.data.take 4) ++ "-" ++ String.mk ((m.data.drop 4).take 2) ++
          "-" ++ String.mk ((m.data.drop 6).take 2))
  else none

/-- Normalization of a link-text date match (`extract_date_from_link`,
text branch): only the `-` and `/` forms return a value; an `8`-digit or
dotted match falls through to the next pattern in the source. -/
def normalizeTextDate (m : String) : Option String :=
  if m.data.contains '-' then
    match splitOnC '-' m with
    | [a, b, c] =>
        if a.length = 4 then some m
        else if c.length = 4 then some (c ++ "-" ++ b ++ "-" ++ a)
        else none
    | _ => none
  else if m.data.contains '/' then
    match splitOnC '/' m with
    | [a, b, c] =>
        if a.length = 4 then some (a ++ "-" ++ b ++ "-" ++ c)
        else if c.length = 4 then some (c ++ "-" ++ b ++ "-" ++ a)
        else none
    | _ => none
  else none

/-- `extract_date_from_link(href, link_text)` from
`Supers/crawler/adapters/generic.py`: try each pattern against the URL
(normalizing the first match), then — only when the link text is
non-empty — against the text. -/
def extract_date_from_link (href link_text : String) : Option String :=
  match date_patterns.findSome? (fun p => (searchPat p href.data).bind normalizeUrlDate) with
  | some d => some d
  | none =>
      if link_text ≠ "" then
        date_patterns.findSome? (fun p => (searchPat p link_text.data).bind normalizeTextDate)
      else none

/-- `VALID_PATTERNS` from `crawler/constants.py`. -/
def VALID_PATTERNS : List String := [".xml", ".gz", ".zip"]

/-- `DEFAULT_DOWNLOAD_SUFFIXES` from `crawler/constants.py`. -/
def DEFAULT_DOWNLOAD_SUFFIXES : List String := [".xml", ".gz", ".zip"]

/-- `looks_like_price_file(url)` from `Supers/crawler/utils.py`. -/
def looks_like_price_file (url : String) : Bool :=
  let u := lowerStr url
  if VALID_PATTERNS.any (fun p => containsStr u p) then true
  else containsStr u "pricefull" ∨ containsStr u "promo" ∨
       containsStr u "stores" ∨ containsStr u "price"

/-- The per-candidate decision of `collect_links_on_page`
(`Supers/crawler/adapters/generic.py`, lines 145–167): a harvested
`(href, text)` pair is added to the result set iff it passes the
price-file/suffix filter and — when `filter_today` is set — carries an
extractable date equal to today. -/
def collectKeep (today : PyDate) (patterns : Option (List String))
    (filter_today : Bool) (href link_text : String) : Bool :=
  let pat := (match patterns with
              | some ps => if ps.isEmpty then DEFAULT_DOWNLOAD_SUFFIXES else ps
              | none => DEFAULT_DOWNLOAD_SUFFIXES).map lowerStr
  if href = "" then false
  else if ¬ (looks_like_price_file href ∨ pat.any (fun p => endsWithStr (lowerStr href) p)) then false
  else if filter_today then
    match extract_date_from_link href link_text with
    | some date_str => is_today today date_str
    | none => false
  else true

/-- Zero-pad a number to two digits (`strftime` `%d`/`%m`). -/
def fmt2 (n : Nat) : String :=
  if n < 10 then "0" ++ toString n else toString n

/-- Zero-pad a year to four digits (`strftime` `%Y`). -/
def fmt4 (n : Nat) : String :=
  if n < 10 then "000" ++ toString n
  else if n < 100 then "00" ++ toString n
  else if n < 1000 then "0" ++ toString n
  else toString n

/-- `datetime.now().strftime("%d/%m/%Y")` — the Bina table format. -/
def formatDDMMYYYY (d : PyDate) : String :=
  fmt2 d.day ++ "/" ++ fmt2 d.month ++ "/" ++ fmt4 d.year

/-- `datetime.now().strftime("%m/%d/%Y")` — the PublishedPrices format. -/
def formatMMDDYYYY (d : PyDate) : String :=
  fmt2 d.month ++ "/" ++ fmt2 d.day ++ "/" ++ fmt4 d.year

/-- `datetime.now().strftime("%Y-%m-%d")`. -/
def formatISO (d : PyDate) : String :=
  fmt4 d.year ++ "-" ++ fmt2 d.month ++ "-" ++ fmt2 d.day

/-- `date_str.split()[0] if ' ' in date_str else date_str` from
`bina_collect_download_buttons` — the first whitespace-separated token
(only plain spaces occur in the extracted cell dates). -/
def binaFirstToken (s : String) : String :=
  if s.data.contains ' ' then ((splitOnC ' ' s).filter (fun t => t ≠ "")).headD ""
  else s

/-- The per-button today-filter of `bina_collect_download_buttons`
(`Supers/crawler/adapters/bina.py`, lines 141–166): with `filter_today`,
a button with no extracted row date is skipped, and an extracted date is
kept only when its date part equals today formatted `DD/MM/YYYY`. -/
def binaKeep (today : PyDate) (filter_today : Bool)
    (date_str : Option String) : Bool :=
  if filter_today then
    match date_str with
    | none => false
    | some s => binaFirstToken s = formatDDMMYYYY today
  else true

/-- `int(s)` from Python: optional sign and decimal digits, surrounding
whitespace tolerated (underscore separators not modelled). -/
def pyInt? (s : String) : Option Int :=
  let cs := (pyStrip s).data
  let (sgn, cs) : Int × List Char :=
    match cs with
    | '+' :: r => (1, r)
    | '-' :: r => (-1, r)
    | _ => (1, cs)
  if cs ≠ [] ∧ cs.all Char.isDigit then some (sgn * digitsToNat cs) else none

/-- `datetime.fromisoformat` restricted to the `YYYY-MM-DD` date form it
receives here. -/
def fromISOFormat? (s : String) : Option PyDate :=
  match splitOnC '-' s with
  | [y, m, d] =>
      if y.length = 4 ∧ y.data.all Char.isDigit ∧
         m.length = 2 ∧ m.data.all Char.isDigit ∧
         d.length = 2 ∧ d.data.all Char.isDigit then
        let yv := digitsToNat y.data
        let mv := digitsToNat m.data
        let dv := digitsToNat d.data
        if validDate yv mv dv then some ⟨yv, mv, dv⟩ else none
      else none
  | _ => none

/-- The `date_matches` computation of `publishedprices_collect_links`
(`crawler/adapters/publishedprices.py`, lines 315–351): direct string
comparison against today in `MM/DD/YYYY` and `YYYY-MM-DD`, then a parse
attempt — slash forms are tried month-first and, only on a constructor
error, day-first; dash forms go through `fromisoformat`. -/
def ppDateMatches (today : PyDate) (date_str : String) : Bool :=
  if date_str = formatMMDDYYYY today then true
  else if date_str = formatISO today then true
  else if date_str.data.contains '/' then
    match splitOnC '/' date_str with
    | [p0, p1, p2] =>
        match pyInt? p2, pyInt? p0, pyInt? p1 with
        | some y, some mo, some dy =>
            if 0 ≤ y ∧ validDate y.toNat mo.toNat dy.toNat then
              PyDate.mk y.toNat mo.toNat dy.toNat = today
            else if 0 ≤ y ∧ validDate y.toNat dy.toNat mo.toNat then
              PyDate.mk y.toNat dy.toNat mo.toNat = today
            else false
        | _, _, _ => false
    | _ => false
  else if date_str.data.contains '-' then
    match fromISOFormat? date_str with
    | some d => d = today
    | none => false
  else false

/-- The per-candidate today-filter of `publishedprices_collect_links`
(`crawler/adapters/publishedprices.py`, lines 313–361): with
`filter_today`, a candidate with an extracted row date is kept iff the
date matches today, while a candidate with **no** extractable date is
logged and kept. -/
def ppKeep (today : PyDate) (filter_today : Bool)
    (date_str : Option String) : Bool :=
  if filter_today then
    match date_str with
    | some s => ppDateMatches today s
    | none => true
  else true

/-- An HTTP response as observed through Playwright's request API: status,
headers (names already lowercased by Playwright), body bytes. -/
structure HttpResponse where
  status : Nat
  headers : List (String × String)
  body : Bytes
deriving DecidableEq

/-- Playwright's `response.ok`: status in the range 200–299. -/
def HttpResponse.ok (r : HttpResponse) : Bool :=
  200 ≤ r.status ∧ r.status ≤ 299

/-- Header lookup (`_resp_headers(resp).get(name)`). -/
def HttpResponse.getHeader (r : HttpResponse) (name : String) : Option String :=
  (r.headers.find? (fun h => h.1 = name)).map (fun h => h.2)

/-- Case-insensitive literal prefix match, returning the rest of the
input. -/
def ciPrefix : List Char → List Char → Option (List Char)
  | [], cs => some cs
  | _ :: _, [] => none
  | p :: ps, c :: cs =>
      if p.toLower = c.toLower then ciPrefix ps cs else none

/-- The `([^\";]+)` capture of the filename regex: the maximal non-empty
run of characters other than `"` and `;`. -/
def cdCapture (cs : List Char) : Option String :=
  let run := cs.takeWhile (fun c => c ≠ '"' ∧ c ≠ ';')
  if run.isEmpty then none else some (String.mk run)

/-- The `\"?([^\";]+)` tail of the filename regex, with the greedy
optional quote. -/
def cdTail (cs : List Char) : Option String :=
  match cs with
  | '"' :: r => match cdCapture r with | some v => some v | none => cdCapture cs
  | _ => cdCapture cs

/-- Attempt the regex `filename\*?=(?:UTF-8'')?\"?([^\";]+)\"?`
(`re.IGNORECASE`) at one position. -/
def cdMatchFrom (cs : List Char) : Option String :=
  match ciPrefix "filename".data cs with
  | none => none
  | some rest =>
      let afterEq : Option (List Char) :=
        match rest with
        | '*' :: '=' :: r => some r
        | '=' :: r => some r
        | _ => none
      match afterEq with
      | none => none
      | some r =>
          -- greedy optional `UTF-8''`, backtracking when the tail fails
          match ciPrefix "UTF-8''".data r with
          | some r2 => match cdTail r2 with
                       | some v => some v
                       | none => cdTail r
          | none => cdTail r

/-- `re.search` of the filename regex over the header value: leftmost
position wins. -/
def cdSearch : List Char → Option String
  | [] => none
  | c :: cs =>
      match cdMatchFrom (c :: cs) with
      | some v => some v
      | none => cdSearch cs

/-- `pick_filename(resp, fallback)` from `Supers/crawler/download.py`:
filename from the Content-Disposition header, else the fallback. -/
def pick_filename (resp : HttpResponse) (fallback : String) : String :=
  let cd := (resp.getHeader "content-disposition").getD ""
  match cdSearch cd.data with
  | some m => m
  | none => fallback

/-- Strip a leading `scheme:` when the part before the first colon is a
valid URL scheme (`urllib.parse.urlparse`). -/
def splitScheme (cs : List Char) : List Char :=
  let pre := cs.takeWhile (fun c => c ≠ ':')
  if pre.length < cs.length ∧ pre ≠ [] ∧
     (pre.headD 'a').isAlpha ∧
     pre.all (fun c => c.isAlphanum ∨ c = '+' ∨ c = '-' ∨ c = '.') then
    cs.drop (pre.length + 1)
  else cs

/-- `urlparse(url).path`: drop the scheme, drop a `//netloc`, cut at the
query or fragment. -/
def urlPath (url : String) : String :=
  let cs := splitScheme url.data
  let cs :=
    if ['/', '/'].isPrefixOf cs then
      (cs.drop 2).dropWhile (fun c => c ≠ '/' ∧ c ≠ '?' ∧ c ≠ '#')
    else cs
  String.mk (cs.takeWhile (fun c => c ≠ '?' ∧ c ≠ '#'))

/-- `urlparse(url).path.split('/')[-1] or "download"` — the fallback
filename of `fetch_url`. -/
def fallbackFilename (url : String) : String :=
  let seg := (splitOnC '/' (urlPath url)).getLastD ""
  if seg = "" then "download" else seg

/-- `fetch_url(page, url)` from `Supers/crawler/download.py`. The network
layer is modelled by `resp?`: `none` when `page.request.get` itself
raises, `some resp` otherwise. The function's own `raise RuntimeError`
for a non-OK status other than 404/403 is caught by its enclosing
`except Exception` block, which returns `(None, None, None)` — the
`Except` detour below reproduces that control flow. -/
def fetch_url (url : String) (resp? : Option HttpResponse) :
    Option Bytes × Option HttpResponse × Option String :=
  let attempt : Except String (Option Bytes × Option HttpResponse × Option String) :=
    match resp? with
    | none => .error "request_error"
    | some resp =>
        if resp.status = 404 then .ok (none, none, none)
        else if resp.status = 403 then .ok (none, none, none)
        else if ¬ resp.ok then .error ("download_failed status=" ++ toString resp.status)
        else .ok (some resp.body, some resp, some (pick_filename resp (fallbackFilename url)))
  match attempt with
  | .ok v => v
  | .error _ => (none, none, none)

/-- `NULLIF(x, '')`: an empty string becomes SQL NULL. -/
def sqlNullif (x : Option String) : Option String :=
  x.bind (fun s => if s = "" then none else some s)

/-- A row of the `retailers` table (timestamps omitted — no claim reads
them). -/
structure RetailerRow where
  id : Nat
  slug : String
  name : String
  needCreds : Bool
deriving DecidableEq

/-- A row of the `stores` table, keyed by `(retailerId, externalId)`.
`name` is `NOT NULL` in effect: every insert supplies `display_name`. -/
structure StoreRow where
  id : Nat
  retailerId : Nat
  externalId : String
  name : String
  city : Option String
  address : Option String
deriving DecidableEq

/-- A row of the `products` table, keyed by `barcode`. -/
structure ProductRow where
  id : Nat
  barcode : String
  name : String
  brand : Option String
  quantity : Option ℚ
  unit : Option String
  isWeighted : Bool
  imageUrl : Option String
deriving DecidableEq

/-- A row of the append-only `price_snapshots` table. `timestamp` keeps
the row's raw reported-date string (`datetime` parsing of it is value-
irrelevant to every claim); `seenAt` is the insertion clock and is
omitted. -/
structure SnapshotRow where
  id : Nat
  productId : Nat
  retailerId : Nat
  storeId : Option Nat
  price : ℚ
  isOnSale : Bool
  timestamp : Option String
deriving DecidableEq

/-- The relational state touched by `ZilaZol/crawler/db.py`, with a single
id sequence (ids start at 1, as database sequences do — the code's
`if db_store_id:` / `if not db_retailer_id:` truthiness tests therefore
coincide with a `None` test). -/
structure DBState where
  retailers : List RetailerRow
  stores : List StoreRow
  products : List ProductRow
  snapshots : List SnapshotRow
  nextId : Nat
deriving DecidableEq

/-- The empty database. -/
def DBState.empty : DBState := ⟨[], [], [], [], 1⟩

/-- `upsert_retailer(retailer_id, name, need_creds)` from
`ZilaZol/crawler/db.py`: insert by unique slug, or update the name
(and `needCreds` only when explicitly provided). -/
def upsert_retailer (db : DBState) (retailer_id name : String)
    (need_creds : Option Bool) : DBState × Option Nat :=
  match db.retailers.find? (fun r => r.slug = retailer_id) with
  | some r =>
      let upd := { r with
        name := name
        needCreds := match need_creds with | some b => b | none => r.needCreds }
      let rs := db.retailers.map (fun x => if x.slug = retailer_id then upd else x)
      ({ db with retailers := rs }, some r.id)
  | none =>
      let row : RetailerRow :=
        { id := db.nextId, slug := retailer_id, name := name,
          needCreds := need_creds.getD false }
      ({ db with retailers := db.retailers ++ [row], nextId := db.nextId + 1 },
       some row.id)

/-- `upsert_store(retailer_db_id, external_id, name, city, address)` from
`ZilaZol/crawler/db.py`: an empty/missing external id returns `None`
before any database access; otherwise insert by `(retailerId,
externalId)` or update with `COALESCE(NULLIF(EXCLUDED.col, ''), old)`,
where the inserted name is `name or f"Store {external_id}"`. -/
def upsert_store (db : DBState) (retailer_db_id : Nat)
    (external_id : Option String) (name city address : Option String) :
    DBState × Option Nat :=
  if ¬ optTruthy external_id then (db, none)
  else
    let ext := external_id.getD ""
    let display_name :=
      match name with
      | some n => if n = "" then "Store " ++ ext else n
      | none => "Store " ++ ext
    match db.stores.find? (fun s => s.retailerId = retailer_db_id ∧ s.externalId = ext) with
    | some s =>
        let upd := { s with
          name := (sqlNullif (some display_name)).getD s.name
          city := (sqlNullif city).orElse (fun _ => s.city)
          address := (sqlNullif address).orElse (fun _ => s.address) }
        let ss := db.stores.map
          (fun x => if x.retailerId = retailer_db_id ∧ x.externalId = ext then upd else x)
        ({ db with stores := ss }, some s.id)
    | none =>
        let row : StoreRow :=
          { id := db.nextId, retailerId := retailer_db_id, externalId := ext,
            name := display_name, city := city, address := address }
        ({ db with stores := db.stores ++ [row], nextId := db.nextId + 1 },
         some row.id)

/-- `upsert_product(barcode, name, brand, quantity, unit, is_weighted,
image_url)` from `ZilaZol/crawler/db.py`: insert by unique barcode or
update with non-empty-preserving COALESCEs; the inserted name is
`name if name else f"Unknown ({barcode})"`, and `isWeighted` is always
overwritten (the excluded value is never NULL). -/
def upsert_product (db : DBState) (barcode : String)
    (name brand : Option String) (quantity : Option ℚ) (unit : Option String)
    (is_weighted : Bool) (image_url : Option String) : DBState × Option Nat :=
  let inserted_name :=
    match name with
    | some n => if n = "" then "Unknown (" ++ barcode ++ ")" else n
    | none => "Unknown (" ++ barcode ++ ")"
  match db.products.find? (fun p => p.barcode = barcode) with
  | some p =>
      let upd := { p with
        name := (sqlNullif (some inserted_name)).getD p.name
        brand := (sqlNullif brand).orElse (fun _ => p.brand)
        quantity := quantity.orElse (fun _ => p.quantity)
        unit := (sqlNullif unit).orElse (fun _ => p.unit)
        isWeighted := is_weighted
        imageUrl := (sqlNullif image_url).orElse (fun _ => p.imageUrl) }
      let ps := db.products.map (fun x => if x.barcode = barcode then upd else x)
      ({ db with products := ps }, some p.id)
  | none =>
      let row : ProductRow :=
        { id := db.nextId, barcode := barcode, name := inserted_name,
          brand := brand, quantity := quantity, unit := unit,
          isWeighted := is_weighted, imageUrl := image_url }
      ({ db with products := db.products ++ [row], nextId := db.nextId + 1 },
       some row.id)

/-- `create_price_snapshot(...)` from `ZilaZol/crawler/db.py`: append-only
insert. -/
def create_price_snapshot (db : DBState) (product_id retailer_id : Nat)
    (price : ℚ) (is_on_sale : Bool) (timestamp : Option String)
    (store_id : Option Nat) : DBState × Option Nat :=
  let row : SnapshotRow :=
    { id := db.nextId, productId := product_id, retailerId := retailer_id,
      storeId := store_id, price := price, isOnSale := is_on_sale,
      timestamp := timestamp }
  ({ db with snapshots := db.snapshots ++ [row], nextId := db.nextId + 1 },
   some row.id)

/-- The state threaded through the row loop of `save_parsed_prices`: the
database, the per-call `(external id → db id)` store cache, and the saved
counter. -/
structure SaveState where
  db : DBState
  store_cache : List (String × Nat)
  saved : Nat
deriving DecidableEq

/-- One iteration of the row loop of `save_parsed_prices`
(`ZilaZol/crawler/db.py`, lines 170–221): parse the price (skipping the
row on failure), resolve the store id through the cache or
`upsert_store` (with the XML store metadata as defaults), upsert the
product, and append a snapshot. -/
def saveRow (retailer_db_id : Nat) (meta : Option StoreMeta)
    (st : SaveState) (row : PriceRow) : SaveState :=
  match pyFloat? row.price with
  | none => st
  | some price =>
      let timestamp := row.date
      let ext? := pyOr row.store_id (meta.bind (fun m => m.store_id))
      let resolved : DBState × Option Nat × List (String × Nat) :=
        if optTruthy ext? then
          let ext := ext?.getD ""
          match st.store_cache.find? (fun e => e.1 = ext) with
          | some e => (st.db, some e.2, st.store_cache)
          | none =>
              let r := upsert_store st.db retailer_db_id ext?
                         (meta.bind (fun m => m.name))
                         (meta.bind (fun m => m.city))
                         (meta.bind (fun m => m.address))
              match r.2 with
              | some sid => (r.1, some sid, (ext, sid) :: st.store_cache)
              | none => (r.1, none, st.store_cache)
        else (st.db, none, st.store_cache)
      let db_store_id := resolved.2.1
      let cache1 := resolved.2.2
      let pr := upsert_product resolved.1 row.barcode row.name row.brand
                  row.quantity row.unit row.is_weighted row.image_url
      match pr.2 with
      | none => { db := pr.1, store_cache := cache1, saved := st.saved }
      | some pid =>
          let sn := create_price_snapshot pr.1 pid retailer_db_id price
                      row.is_on_sale timestamp db_store_id
          { db := sn.1, store_cache := cache1, saved := st.saved + 1 }

/-- `save_parsed_prices(rows, retailer_id, retailer_name, store_metadata)`
from `ZilaZol/crawler/db.py`. -/
def save_parsed_prices (db : DBState) (rows : List PriceRow)
    (retailer_id retailer_name : String) (meta : Option StoreMeta) :
    DBState × Nat :=
  if rows.isEmpty then (db, 0)
  else
    match upsert_retailer db retailer_id retailer_name none with
    | (db0, none) => (db0, 0)
    | (db0, some rid) =>
        let fin := rows.foldl (saveRow rid meta) ⟨db0, [], 0⟩
        (fin.db, fin.saved)

/-- The retailers that `run_all` (`Supers/crawler/core.py`) schedules: one
task per retailer with `retailer.get("enabled", True)`. -/
def enabledRetailers (retailers : List Retailer) : List Retailer :=
  retailers.filter (fun r => r.enabled)

/-- The phase of one `limited_crawl` task of `run_all`: not yet admitted
by the semaphore, inside `async with sem` with `k` remaining suspension
points of its `crawl_retailer` call (the worker holds its browser context
for exactly this phase), or completed (permit returned, result recorded
for `asyncio.gather`). -/
inductive TaskStatus where
  | waiting
  | running (k : Nat)
  | settled
deriving DecidableEq

/-- Whether a task currently holds a semaphore permit (and hence a
browser context). -/
def TaskStatus.holdsPermit : TaskStatus → Bool
  | .running _ => true
  | _ => false

/-- A scheduler state of `run_all`: the status of each spawned task, in
spawn order. -/
abbrev RunState := List TaskStatus

/-- The number of tasks currently holding one of the semaphore's permits
— equivalently, the number of live browser contexts. -/
def holders (s : RunState) : Nat := (s.filter TaskStatus.holdsPermit).length

/-- The cooperative scheduling steps of `run_all` with
`sem = asyncio.Semaphore(3)`: a waiting task may enter `async with sem`
only while fewer than 3 permits are held (`work i` is the finite number
of suspension points its `crawl_retailer` body will pass); a running task
may advance past one suspension point; a running task at its last point
completes, releasing its permit. The event loop picks any enabled step. -/
inductive SemStep (work : Nat → Nat) : RunState → RunState → Prop
  | acquire (s : RunState) (i : Nat) (h : s.get? i = some .waiting)
      (hcap : holders s < 3) : SemStep work s (s.set i (.running (work i)))
  | advance (s : RunState) (i k : Nat) (h : s.get? i = some (.running (k + 1))) :
      SemStep work s (s.set i (.running k))
  | finish (s : RunState) (i : Nat) (h : s.get? i = some (.running 0)) :
      SemStep work s (s.set i .settled)

/-- The start state of `run_all` over a retailer list: one waiting task
per enabled retailer. -/
def initState (retailers : List Retailer) : RunState :=
  List.replicate (enabledRetailers retailers).length .waiting

/-- The states a run can reach from its start state. -/
def ReachableRun (work : Nat → Nat) (retailers : List Retailer)
    (s : RunState) : Prop :=
  Relation.ReflTransGen (SemStep work) (initState retailers) s

/-- The number of steps a task of the given remaining work still owes in
each phase. -/
def statusWeight (w : Nat) : TaskStatus → Nat
  | .waiting => w + 2
  | .running k => k + 1
  | .settled => 0

/-- Termination measure of a scheduler state: the exact number of steps
still possible (position-dependent, since a waiting task `i` still owes
`work i + 2` steps). -/
def runMeasure (work : Nat → Nat) : Nat → RunState → Nat
  | _, [] => 0
  | i, t :: ts => statusWeight (work i) t + runMeasure work (i + 1) ts

/-- C7: for a blob sniffed as gzip that the gzip codec decompresses to
`X`, the extractor emits exactly one entry with bytes `X`, named as the
filename hint with every `.gz`/`.zip` occurrence stripped (the non-empty
case of the naming rule); and for a blob sniffed as zip whose archive
holds exactly one `.xml` member, the extractor emits exactly that member,
whatever the filename hint. -/
theorem C7_extractor_roundtrip :
    (∀ (gunzip : Bytes → Option Bytes) (unzip : Bytes → Option (List (String × Bytes)))
       (G X : Bytes) (hint : String),
        sniff_kind G = "gz" → gunzip G = some X →
        replaceAll (replaceAll hint ".gz" "") ".zip" "" ≠ "" →
        iter_xml_entries gunzip unzip G hint =
          [(replaceAll (replaceAll hint ".gz" "") ".zip" "", X)])
  ∧ (∀ (gunzip : Bytes → Option Bytes) (unzip : Bytes → Option (List (String × Bytes)))
       (Z : Bytes) (es : List (String × Bytes)) (e : String × Bytes) (hint : String),
        sniff_kind Z = "zip" → unzip Z = some es →
        es.filter (fun m => endsWithStr (lowerStr m.1) ".xml") = [e] →
        iter_xml_entries gunzip unzip Z hint = [e]) := by
  constructor
  · intro gunzip unzip G X hint hs hgz hname
    simp only [iter_xml_entries, hs, hgz, if_pos rfl]
    simp [if_neg hname]
  · intro gunzip unzip Z es e hint hs hz hfilter
    have hzgz : ("zip" : String) ≠ "gz" := by decide
    simp only [iter_xml_entries, hs, if_neg hzgz, hz, hfilter]
    simp

/-- C7 witness: both parts applied at concrete blobs and codecs. -/
theorem C7_extractor_roundtrip_witness :
    iter_xml_entries (fun _ => some [0x3c, 0x3e]) (fun _ => none)
        [0x1f, 0x8b, 0x00] "prices.gz" = [("prices", [0x3c, 0x3e])]
  ∧ iter_xml_entries (fun _ => none)
        (fun _ => some [("a.txt", [1]), ("inner.xml", [2])])
        [0x50, 0x4b, 0x00] "mislabeled.gz" = [("inner.xml", [2])] :=
  ⟨C7_extractor_roundtrip.1 _ _ _ _ _ (by decide) rfl (by decide),
   C7_extractor_roundtrip.2 _ _ _ _ _ _ (by decide) rfl (by decide)⟩

/-- C8: evaluation of the extractor at the failing inputs. First: a blob
carrying the gzip magic whose gzip decompression fails, while the zip
codec would succeed on it (`zipfile` locates a central directory from the
end of the file, so a zip archive behind gzip-magic prefix bytes is
readable) — the extractor never attempts the zip path (its guard
`k == "zip" or data.startswith(ZIP_MAGIC)` is false for gzip-magic bytes,
although the comment in the gzip `except` branch says "try zip next") and
falls through to the raw heuristic, returning the compressed bytes
unchanged. Second, symmetrically: a zip-sniffed blob whose zip extraction
fails is never tried as gzip. -/
theorem C8_no_cross_container_retry :
    iter_xml_entries (fun _ => none) (fun _ => some [("inner.xml", [49])])
        [0x1f, 0x8b, 0x3c, 0x3e] "a.gz" = [("a.gz", [0x1f, 0x8b, 0x3c, 0x3e])]
  ∧ iter_xml_entries (fun _ => some [0x3c]) (fun _ => none)
        [0x50, 0x4b, 0x3c, 0x3e] "a.zip" = [("a.zip", [0x50, 0x4b, 0x3c, 0x3e])] := by
  constructor
  · decide
  · decide

/-- C5 counterexample: the claim says `fetch_url` raises an error for a
non-OK status other than 404/403, but the function's own
`except Exception` block catches the `RuntimeError` it raises, so a 500
response yields the same `(None, None, None)` triple as a broken link —
no error reaches the caller. -/
theorem C5_counterexample_500_returns_none :
    fetch_url "http://host/path/file.gz" (some ⟨500, [], [1, 2]⟩)
      = (none, none, none) := by decide

/-- C5 amended: `fetch_url` returns `(None, None, None)` for 404/403 and
— instead of raising — for every other non-OK status and for request
errors; when the response is OK, the filename comes from the
Content-Disposition header when its filename regex matches, else the last
segment of the URL path, else `"download"`. -/
theorem C5_fetch_url_amended :
    (∀ url (r : HttpResponse), r.status = 404 ∨ r.status = 403 →
        fetch_url url (some r) = (none, none, none))
  ∧ (∀ url (r : HttpResponse), r.ok = false →
        fetch_url url (some r) = (none, none, none))
  ∧ (∀ url, fetch_url url none = (none, none, none))
  ∧ (∀ url (r : HttpResponse) (n : String), r.ok = true →
        cdSearch ((r.getHeader "content-disposition").getD "").data = some n →
        fetch_url url (some r) = (some r.body, some r, some n))
  ∧ (∀ url (r : HttpResponse), r.ok = true →
        cdSearch ((r.getHeader "content-disposition").getD "").data = none →
        (splitOnC '/' (urlPath url)).getLastD "" ≠ "" →
        fetch_url url (some r)
          = (some r.body, some r, some ((splitOnC '/' (urlPath url)).getLastD "")))
  ∧ (∀ url (r : HttpResponse), r.ok = true →
        cdSearch ((r.getHeader "content-disposition").getD "").data = none →
        (splitOnC '/' (urlPath url)).getLastD "" = "" →
        fetch_url url (some r) = (some r.body, some r, some "download")) := by
  refine ⟨?_, ?_, ?_, ?_, ?_, ?_⟩
  · intro url r h
    rcases h with h | h <;> simp [fetch_url, h]
  · intro url r h
    by_cases h404 : r.status = 404
    · simp [fetch_url, h404]
    · by_cases h403 : r.status = 403
      · simp [fetch_url, h403]
      · simp [fetch_url, h404, h403, h]
  · intro url
    simp [fetch_url]
  · intro url r n hok hcd
    have h404 : r.status ≠ 404 := by
      intro h; simp [HttpResponse.ok, h] at hok
    have h403 : r.status ≠ 403 := by
      intro h; simp [HttpResponse.ok, h] at hok
    simp [fetch_url, h404, h403, hok, pick_filename, hcd]
  · intro url r hok hcd hseg
    have h404 : r.status ≠ 404 := by
      intro h; simp [HttpResponse.ok, h] at hok
    have h403 : r.status ≠ 403 := by
      intro h; simp [HttpResponse.ok, h] at hok
    rw [List.getLastD_eq_getLast?] at hseg
    simp [fetch_url, h404, h403, hok, pick_filename, hcd, fallbackFilename,
      List.getLastD_eq_getLast?, hseg]
  · intro url r hok hcd hseg
    have h404 : r.status ≠ 404 := by
      intro h; simp [HttpResponse.ok, h] at hok
    have h403 : r.status ≠ 403 := by
      intro h; simp [HttpResponse.ok, h] at hok
    rw [List.getLastD_eq_getLast?] at hseg
    simp [fetch_url, h404, h403, hok, pick_filename, hcd, fallbackFilename,
      List.getLastD_eq_getLast?, hseg]

/-- C5 witness: the amended theorem applied at concrete responses — a 404,
a network error, a Content-Disposition filename, a path-segment fallback,
and the `"download"` fallback. -/
theorem C5_fetch_url_amended_witness :
    fetch_url "http://h/x.gz" (some ⟨404, [], []⟩) = (none, none, none)
  ∧ fetch_url "http://h/x.gz" none = (none, none, none)
  ∧ fetch_url "http://h/x.gz"
      (some ⟨200, [("content-disposition", "attachment; filename=\"cd.gz\"")], [7]⟩)
      = (some [7], some ⟨200, [("content-disposition", "attachment; filename=\"cd.gz\"")], [7]⟩, some "cd.gz")
  ∧ fetch_url "http://h/a/b.gz" (some ⟨200, [], [7]⟩)
      = (some [7], some ⟨200, [], [7]⟩, some "b.gz")
  ∧ fetch_url "http://h/" (some ⟨200, [], [7]⟩)
      = (some [7], some ⟨200, [], [7]⟩, some "download") :=
  ⟨C5_fetch_url_amended.1 _ _ (Or.inl rfl),
   C5_fetch_url_amended.2.2.1 _,
   C5_fetch_url_amended.2.2.2.1 _ _ _ (by decide) (by decide),
   C5_fetch_url_amended.2.2.2.2.1 _ _ (by decide) (by decide) (by decide),
   C5_fetch_url_amended.2.2.2.2.2 _ _ (by decide) (by decide) (by decide)⟩

/-- C6 counterexample: the claim says every adapter's discovery excludes
candidates with no extractable date when `filter_today` is true, but the
authenticated file-manager adapter keeps them: its per-candidate filter
(`publishedprices_collect_links`, "If no date found, log but don't skip")
returns keep for a dateless candidate. -/
theorem C6_counterexample_pp_keeps_dateless :
    ppKeep ⟨2025, 10, 12⟩ true none = true := by decide

/-- C6 amended: with `filter_today` true, the generic adapter keeps a
candidate only when an extractable date normalizes and parses to today
(so dateless and differently-dated candidates are excluded); the bina
adapter likewise excludes dateless candidates and keeps a dated one only
when its date token is today in `DD/MM/YYYY`; the authenticated
file-manager (publishedprices) adapter excludes a dated candidate whose
date fails its today-match but keeps every candidate with no extractable
date. -/
theorem C6_today_filter_amended :
    (∀ (today : PyDate) (pats : Option (List String)) (href text : String),
        collectKeep today pats true href text = true →
        ∃ d, extract_date_from_link href text = some d ∧ strptimeISO? d = some today)
  ∧ (∀ today : PyDate, binaKeep today true none = false)
  ∧ (∀ (today : PyDate) (s : String), binaKeep today true (some s) = true →
        binaFirstToken s = formatDDMMYYYY today)
  ∧ (∀ (today : PyDate) (s : String), ppKeep today true (some s) = true →
        ppDateMatches today s = true)
  ∧ (∀ today : PyDate, ppKeep today true none = true) := by
  refine ⟨?_, ?_, ?_, ?_, ?_⟩
  · intro today pats href text h
    simp only [collectKeep] at h
    split_ifs at h
    cases hx : extract_date_from_link href text with
    | none => rw [hx] at h; exact absurd h (by simp)
    | some d =>
        rw [hx] at h
        exact ⟨d, rfl, of_decide_eq_true h⟩
  · intro today; rfl
  · intro today s h
    simp only [binaKeep] at h
    exact of_decide_eq_true h
  · intro today s h
    simpa [ppKeep] using h
  · intro today; rfl

/-- C6 witness: the generic-adapter part of the amended theorem applied to
a concrete kept link (dated today in the URL). -/
theorem C6_today_filter_amended_witness :
    ∃ d, extract_date_from_link "http://x/prices-2025-10-12.gz" "" = some d ∧
         strptimeISO? d = some ⟨2025, 10, 12⟩ :=
  C6_today_filter_amended.1 ⟨2025, 10, 12⟩ none _ _ (by decide)

/-- C1: the decision table of the `<Item>` loop of `parse_prices_xml`.
When both price strings are present and numeric, the promotional price is
chosen with is-on-sale exactly when it is strictly below the regular
price, else the regular price with is-on-sale false (also when either
string fails to parse); a promo-only item is on sale at the promo price; a
regular-only item is off sale at the regular price; an item with neither
price contributes no row. The last two conjuncts connect the decision to
the emitted row: a `none` decision suppresses the row, and every emitted
row carries exactly the decided price string and flag. -/
theorem C1_promo_vs_regular_decision :
    (∀ (r p : String) (rv pv : ℚ), pyFloat? r = some rv → pyFloat? p = some pv →
        priceDecision (some r) (some p)
          = if pv < rv then some (p, true) else some (r, false))
  ∧ (∀ r p : String, pyFloat? r = none ∨ pyFloat? p = none →
        priceDecision (some r) (some p) = some (r, false))
  ∧ (∀ p : String, priceDecision none (some p) = some (p, true))
  ∧ (∀ r : String, priceDecision (some r) none = some (r, false))
  ∧ priceDecision none none = none
  ∧ (∀ (eff : Option String) (c : String) (it : XElem),
        priceDecision (first_text it ["ItemPrice", "Price", "RegularPrice", "ListPrice"])
          (first_text it ["PromotionPrice", "DiscountedPrice", "SalePrice", "DiscountPrice"])
          = none →
        priceItemRow eff c it = none)
  ∧ (∀ (eff : Option String) (c : String) (it : XElem) (row : PriceRow),
        priceItemRow eff c it = some row →
        ∃ ps sale,
          priceDecision (first_text it ["ItemPrice", "Price", "RegularPrice", "ListPrice"])
            (first_text it ["PromotionPrice", "DiscountedPrice", "SalePrice", "DiscountPrice"])
            = some (ps, sale) ∧ row.price = ps ∧ row.is_on_sale = sale) := by
  refine ⟨?_, ?_, ?_, ?_, rfl, ?_, ?_⟩
  · intro r p rv pv hr hp
    simp only [priceDecision, hr, hp]
  · intro r p h
    rcases h with h | h
    · simp [priceDecision, h]
    · cases hr : pyFloat? r <;> simp [priceDecision, hr, h]
  · intro p; rfl
  · intro r; rfl
  · intro eff c it hd
    simp only [priceItemRow, hd]
  · intro eff c it row h
    simp only [priceItemRow] at h
    cases hd : priceDecision (first_text it ["ItemPrice", "Price", "RegularPrice", "ListPrice"])
        (first_text it ["PromotionPrice", "DiscountedPrice", "SalePrice", "DiscountPrice"]) with
    | none => rw [hd] at h; exact absurd h (by simp)
    | some pr =>
        obtain ⟨ps, sale⟩ := pr
        rw [hd] at h
        cases hb : first_text it ["ItemCode", "Barcode"] with
        | none => rw [hb] at h; exact absurd h (by simp)
        | some bc =>
            rw [hb] at h
            refine ⟨ps, sale, rfl, ?_, ?_⟩ <;>
              · injection h with h'; rw [← h']

/-- C1 witness: the decision table applied at concrete items — regular
10.0 with promo 12.0 stays off sale at 10.0; promo 8.0 beats regular 10.0;
an unparseable promo falls back to the regular price; and a concrete
`<Item>` element's emitted row exposes a decided price. -/
theorem C1_promo_vs_regular_decision_witness :
    priceDecision (some "10.0") (some "12.0")
      = (if (12 : ℚ) < 10 then some ("12.0", true) else some ("10.0", false))
  ∧ priceDecision (some "10.0") (some "8.0")
      = (if (8 : ℚ) < 10 then some ("8.0", true) else some ("10.0", false))
  ∧ priceDecision (some "10.0") (some "oops") = some ("10.0", false)
  ∧ ∃ ps sale,
      priceDecision
        (first_text (XElem.mk "Item" none
          [XElem.mk "ItemCode" (some "7290000000001") [],
           XElem.mk "ItemPrice" (some "5.90") []])
          ["ItemPrice", "Price", "RegularPrice", "ListPrice"])
        (first_text (XElem.mk "Item" none
          [XElem.mk "ItemCode" (some "7290000000001") [],
           XElem.mk "ItemPrice" (some "5.90") []])
          ["PromotionPrice", "DiscountedPrice", "SalePrice", "DiscountPrice"])
        = some (ps, sale) :=
  ⟨C1_promo_vs_regular_decision.1 "10.0" "12.0" 10 12 (by decide) (by decide),
   C1_promo_vs_regular_decision.1 "10.0" "8.0" 10 8 (by decide) (by decide),
   C1_promo_vs_regular_decision.2.1 "10.0" "oops" (Or.inr (by decide)),
   by
    obtain ⟨ps, sale, hd, hp, hs⟩ :=
      C1_promo_vs_regular_decision.2.2.2.2.2.2 none "shufersal"
        (XElem.mk "Item" none
          [XElem.mk "ItemCode" (some "7290000000001") [],
           XElem.mk "ItemPrice" (some "5.90") []])
        { name := none, barcode := "7290000000001", date := none,
          price := "5.90", company := "shufersal", store_id := none,
          is_on_sale := false, brand := none, unit := none,
          quantity := none, is_weighted := false, image_url := none }
        (by decide)
    exact ⟨ps, sale, hd⟩⟩

/-- A non-empty prefix keeps a string append non-empty. -/
theorem append_ne_empty_left (pre e : String) (hp : pre.data ≠ []) :
    pre ++ e ≠ "" := by
  intro h
  have hd := congrArg String.data h
  rw [String.data_append] at hd
  simp at hd
  exact hp hd.1

/-- Updating every row matching a key predicate keeps the first match
findable, now holding the updated value. -/
theorem find?_map_update {α : Type} (q : α → Prop) [DecidablePred q]
    (u : α) (l : List α) (s : α)
    (h : l.find? (fun x => decide (q x)) = some s) (hu : q u) :
    (l.map (fun x => if q x then u else x)).find? (fun x => decide (q x))
      = some u := by
  induction l with
  | nil => simp at h
  | cons a l ih =>
      by_cases ha : q a
      · simp [List.find?, ha, hu]
      · have h' : l.find? (fun x => decide (q x)) = some s := by
          simpa [List.find?, ha] using h
        simp [List.find?, ha, ih h']

/-- C3 counterexample: the claimed scenario — `upsert(name="A", city=null)`
then `upsert(name=null, city="B")` on a fresh `(retailer, external-id)`
key — does not leave `name="A"`: the second call's `display_name`
fallback (`name or f"Store {external_id}"`) is non-empty, so the
`COALESCE(NULLIF(EXCLUDED.name, ''), stores.name)` clause overwrites the
stored name with the placeholder. City behaves as claimed. -/
theorem C3_counterexample_name_regresses :
    (upsert_store (upsert_store DBState.empty 1 (some "001") (some "A") none none).1
        1 (some "001") none (some "B") none).1.stores
      = [⟨1, 1, "001", "Store 001", some "B", none⟩]
  ∧ "Store 001" ≠ "A" := ⟨by decide, by decide⟩

/-- C3 amended: the store and product upserts are non-empty-preserving on
every metadata field except the name — incoming null/empty city, address,
brand, quantity, unit and image-url leave the stored value, and non-empty
incoming values overwrite it; the name column instead is overwritten on
every upsert, with the incoming name when non-empty and with the
placeholder (`Store {external-id}` / `Unknown ({barcode})`) when the
incoming name is null or empty, so the claimed two-upsert scenario ends
with `name = "Store {ext}"`, `city = "B"`. -/
theorem C3_upsert_nonempty_preserving_amended :
    (∀ (db : DBState) (rid : Nat) (ext : String)
       (name city address : Option String) (s : StoreRow),
        ext ≠ "" →
        db.stores.find? (fun x => x.retailerId = rid ∧ x.externalId = ext) = some s →
        ∃ s', (upsert_store db rid (some ext) name city address).1.stores.find?
                (fun x => x.retailerId = rid ∧ x.externalId = ext) = some s'
          ∧ ((city = none ∨ city = some "") → s'.city = s.city)
          ∧ (∀ c, city = some c → c ≠ "" → s'.city = some c)
          ∧ ((address = none ∨ address = some "") → s'.address = s.address)
          ∧ (∀ a, address = some a → a ≠ "" → s'.address = some a)
          ∧ ((name = none ∨ name = some "") → s'.name = "Store " ++ ext)
          ∧ (∀ n, name = some n → n ≠ "" → s'.name = n))
  ∧ (∀ (db : DBState) (bc : String) (name brand : Option String) (q : Option ℚ)
       (unit image_url : Option String) (w : Bool) (p : ProductRow),
        db.products.find? (fun x => x.barcode = bc) = some p →
        ∃ p', (upsert_product db bc name brand q unit w image_url).1.products.find?
                (fun x => x.barcode = bc) = some p'
          ∧ ((brand = none ∨ brand = some "") → p'.brand = p.brand)
          ∧ (∀ b, brand = some b → b ≠ "" → p'.brand = some b)
          ∧ ((unit = none ∨ unit = some "") → p'.unit = p.unit)
          ∧ ((image_url = none ∨ image_url = some "") → p'.imageUrl = p.imageUrl)
          ∧ (q = none → p'.quantity = p.quantity)
          ∧ (∀ v, q = some v → p'.quantity = some v)
          ∧ ((name = none ∨ name = some "") → p'.name = "Unknown (" ++ bc ++ ")")
          ∧ (∀ n, name = some n → n ≠ "" → p'.name = n)) := by
  constructor
  · intro db rid ext name city address s hext hfind
    have hkey : s.retailerId = rid ∧ s.externalId = ext := by
      simpa using List.find?_some hfind
    have htru : optTruthy (some ext) = true := by simp [optTruthy, hext]
    set display_name :=
      (match name with
       | some n => if n = "" then "Store " ++ ext else n
       | none => "Store " ++ ext) with hdn
    set upd := { s with
      name := (sqlNullif (some display_name)).getD s.name
      city := (sqlNullif city).orElse (fun _ => s.city)
      address := (sqlNullif address).orElse (fun _ => s.address) } with hupd
    have hres : (upsert_store db rid (some ext) name city address).1.stores
        = db.stores.map (fun x =>
            if x.retailerId = rid ∧ x.externalId = ext then upd else x) := by
      simp only [upsert_store, htru, Option.getD_some, hfind, ← hdn, ← hupd]
      try simp
    have hupdkey : upd.retailerId = rid ∧ upd.externalId = ext := by
      simpa [hupd] using hkey
    refine ⟨upd, ?_, ?_, ?_, ?_, ?_, ?_, ?_⟩
    · rw [hres]; exact find?_map_update _ _ _ _ hfind hupdkey
    · rintro (rfl | rfl) <;> simp [hupd, sqlNullif]
    · rintro c rfl hc; simp [hupd, sqlNullif, hc]
    · rintro (rfl | rfl) <;> simp [hupd, sqlNullif]
    · rintro a rfl ha; simp [hupd, sqlNullif, ha]
    · have hph : ("Store " ++ ext) ≠ "" := append_ne_empty_left _ _ (by decide)
      rintro (rfl | rfl) <;> simp [hupd, hdn, sqlNullif, hph]
    · rintro n rfl hn; simp [hupd, hdn, sqlNullif, hn]
  · intro db bc name brand q unit image_url w p hfind
    have hkey : p.barcode = bc := by
      simpa using List.find?_some hfind
    set inserted_name :=
      (match name with
       | some n => if n = "" then "Unknown (" ++ bc ++ ")" else n
       | none => "Unknown (" ++ bc ++ ")") with hdn
    set upd := { p with
      name := (sqlNullif (some inserted_name)).getD p.name
      brand := (sqlNullif brand).orElse (fun _ => p.brand)
      quantity := q.orElse (fun _ => p.quantity)
      unit := (sqlNullif unit).orElse (fun _ => p.unit)
      isWeighted := w
      imageUrl := (sqlNullif image_url).orElse (fun _ => p.imageUrl) } with hupd
    have hres : (upsert_product db bc name brand q unit w image_url).1.products
        = db.products.map (fun x => if x.barcode = bc then upd else x) := by
      simp only [upsert_product, hfind, ← hdn, ← hupd]
      try simp
    have hupdkey : upd.barcode = bc := by
      simpa [hupd] using hkey
    refine ⟨upd, ?_, ?_, ?_, ?_, ?_, ?_, ?_, ?_, ?_⟩
    · rw [hres]; exact find?_map_update _ _ _ _ hfind hupdkey
    · rintro (rfl | rfl) <;> simp [hupd, sqlNullif]
    · rintro b rfl hb; simp [hupd, sqlNullif, hb]
    · rintro (rfl | rfl) <;> simp [hupd, sqlNullif]
    · rintro (rfl | rfl) <;> simp [hupd, sqlNullif]
    · rintro rfl; simp [hupd]
    · rintro v rfl; simp [hupd]
    · have hph : ("Unknown (" ++ bc ++ ")") ≠ "" := by
        rw [String.append_assoc]
        exact append_ne_empty_left "Unknown (" (bc ++ ")") (by decide)
      rintro (rfl | rfl) <;> simp [hupd, hdn, sqlNullif, hph]
    · rintro n rfl hn; simp [hupd, hdn, sqlNullif, hn]

/-- C3 witness: the amended preservation theorem applied to the concrete
two-upsert scenario of the claim. -/
theorem C3_upsert_nonempty_preserving_amended_witness :
    ∃ s' : StoreRow,
      (upsert_store (upsert_store DBState.empty 1 (some "001") (some "A") none none).1
          1 (some "001") none (some "B") none).1.stores.find?
          (fun x => x.retailerId = 1 ∧ x.externalId = "001") = some s' := by
  obtain ⟨s', h, -⟩ := C3_upsert_nonempty_preserving_amended.1
    (upsert_store DBState.empty 1 (some "001") (some "A") none none).1
    1 "001" none (some "B") none ⟨1, 1, "001", "A", none, none⟩
    (by decide) (by decide)
  exact ⟨s', h⟩

/-- `upsert_product` never touches the stores table. -/
theorem upsert_product_stores (db : DBState) (bc : String)
    (name brand : Option String) (q : Option ℚ) (unit : Option String)
    (w : Bool) (image_url : Option String) :
    (upsert_product db bc name brand q unit w image_url).1.stores = db.stores := by
  unfold upsert_product
  cases db.products.find? (fun p => p.barcode = bc) <;> rfl

/-- `upsert_product` never touches the snapshots table. -/
theorem upsert_product_snapshots (db : DBState) (bc : String)
    (name brand : Option String) (q : Option ℚ) (unit : Option String)
    (w : Bool) (image_url : Option String) :
    (upsert_product db bc name brand q unit w image_url).1.snapshots
      = db.snapshots := by
  unfold upsert_product
  cases db.products.find? (fun p => p.barcode = bc) <;> rfl

/-- Every row emitted by one `<Promotion>` node carries the effective
store id. -/
theorem promoRows_store_id (eff : Option String) (c : String) (promo : XElem)
    (r : PriceRow) (h : r ∈ promoRows eff c promo) : r.store_id = eff := by
  unfold promoRows at h
  cases hp : first_text promo ["DiscountedPrice", "DiscountRate"] with
  | none => rw [hp] at h; simp at h
  | some price =>
      rw [hp] at h
      obtain ⟨item, -, hr⟩ := List.mem_filterMap.mp h
      cases hb : first_text item ["ItemCode", "Barcode"] with
      | none => rw [hb] at hr; simp at hr
      | some bc =>
          rw [hb] at hr
          cases hr
          rfl

/-- Every row emitted by the `<Item>` loop carries the effective store
id. -/
theorem priceItemRow_store_id (eff : Option String) (c : String) (it : XElem)
    (r : PriceRow) (h : priceItemRow eff c it = some r) : r.store_id = eff := by
  simp only [priceItemRow] at h
  cases hd : priceDecision (first_text it ["ItemPrice", "Price", "RegularPrice", "ListPrice"])
      (first_text it ["PromotionPrice", "DiscountedPrice", "SalePrice", "DiscountPrice"]) with
  | none => rw [hd] at h; simp at h
  | some pr =>
      obtain ⟨ps, sale⟩ := pr
      rw [hd] at h
      cases hb : first_text it ["ItemCode", "Barcode"] with
      | none => rw [hb] at h; simp at h
      | some bc =>
          rw [hb] at h
          cases h
          rfl

/-- C10: an empty or missing external store id makes `upsert_store` return
`None` with the database untouched; a `save_parsed_prices` row whose
effective external id is not truthy leaves the stores table and the store
cache unchanged and appends only snapshots with `storeId = NULL`; and
every row parsed out of a price XML carries exactly the parse's effective
store id (`metadata-or-hint`), so a parsed row with no store id can only
reach the snapshot with `storeId = NULL`. -/
theorem C10_no_store_id_yields_null_storeId :
    (∀ (db : DBState) (rid : Nat) (n c a : Option String),
        upsert_store db rid none n c a = (db, none))
  ∧ (∀ (db : DBState) (rid : Nat) (n c a : Option String),
        upsert_store db rid (some "") n c a = (db, none))
  ∧ (∀ (rid : Nat) (meta : Option StoreMeta) (st : SaveState) (row : PriceRow),
        optTruthy (pyOr row.store_id (meta.bind (fun m => m.store_id))) = false →
          (saveRow rid meta st row).db.stores = st.db.stores
        ∧ (saveRow rid meta st row).store_cache = st.store_cache
        ∧ ∀ sn ∈ (saveRow rid meta st row).db.snapshots,
            sn ∈ st.db.snapshots ∨ sn.storeId = none)
  ∧ (∀ (xml : Option XElem) (c : String) (sid : Option String) (r : PriceRow),
        r ∈ (parse_prices_xml xml c sid).1 →
        r.store_id = pyOr (parse_prices_xml xml c sid).2.store_id sid)
  ∧ (∀ (xml : Option XElem) (c : String) (sid : Option String) (rid : Nat)
       (st : SaveState) (r : PriceRow),
        r ∈ (parse_prices_xml xml c sid).1 →
        optTruthy r.store_id = false →
          (saveRow rid (some (parse_prices_xml xml c sid).2) st r).db.stores
            = st.db.stores
        ∧ ∀ sn ∈ (saveRow rid (some (parse_prices_xml xml c sid).2) st r).db.snapshots,
            sn ∈ st.db.snapshots ∨ sn.storeId = none) := by
  have hskip : ∀ (rid : Nat) (meta : Option StoreMeta) (st : SaveState) (row : PriceRow),
      optTruthy (pyOr row.store_id (meta.bind (fun m => m.store_id))) = false →
        (saveRow rid meta st row).db.stores = st.db.stores
      ∧ (saveRow rid meta st row).store_cache = st.store_cache
      ∧ ∀ sn ∈ (saveRow rid meta st row).db.snapshots,
          sn ∈ st.db.snapshots ∨ sn.storeId = none := by
    intro rid meta st row hfalse
    cases hf : pyFloat? row.price with
    | none =>
        unfold saveRow
        rw [hf]
        exact ⟨rfl, rfl, fun sn hs => Or.inl hs⟩
    | some price =>
        unfold saveRow
        rw [hf]
        simp only [hfalse, Bool.false_eq_true, if_false]
        cases hp : (upsert_product st.db row.barcode row.name row.brand
            row.quantity row.unit row.is_weighted row.image_url).2 with
        | none =>
            refine ⟨upsert_product_stores _ _ _ _ _ _ _ _, rfl, fun sn hs => Or.inl ?_⟩
            rwa [upsert_product_snapshots] at hs
        | some pid =>
            simp only [create_price_snapshot]
            refine ⟨upsert_product_stores _ _ _ _ _ _ _ _, by trivial, fun sn hs => ?_⟩
            rw [upsert_product_snapshots] at hs
            rcases List.mem_append.mp hs with hs | hs
            · exact Or.inl hs
            · simp at hs
              subst hs
              exact Or.inr rfl
  have hglue : ∀ (xml : Option XElem) (c : String) (sid : Option String) (r : PriceRow),
      r ∈ (parse_prices_xml xml c sid).1 →
      r.store_id = pyOr (parse_prices_xml xml c sid).2.store_id sid := by
    intro xml c sid r hr
    cases xml with
    | none => simp [parse_prices_xml] at hr
    | some root =>
        simp only [parse_prices_xml] at hr ⊢
        rcases List.mem_append.mp hr with hr | hr
        · obtain ⟨promo, -, hp⟩ := List.mem_flatMap.mp hr
          exact promoRows_store_id _ _ _ _ hp
        · obtain ⟨it, -, hp⟩ := List.mem_filterMap.mp hr
          exact priceItemRow_store_id _ _ _ _ hp
  refine ⟨?_, ?_, hskip, hglue, ?_⟩
  · intro db rid n c a; rfl
  · intro db rid n c a; rfl
  · intro xml c sid rid st r hr hft
    have hrs := hglue xml c sid r hr
    have hmeta : optTruthy (parse_prices_xml xml c sid).2.store_id = false := by
      by_contra hmt
      have hmt' : optTruthy (parse_prices_xml xml c sid).2.store_id = true := by
        cases h : optTruthy (parse_prices_xml xml c sid).2.store_id with
        | false => exact absurd h hmt
        | true => rfl
      rw [hrs, pyOr, hmt', if_pos rfl] at hft
      rw [hft] at hmt'
      exact absurd hmt' (by simp)
    have hext : optTruthy (pyOr r.store_id
        ((some (parse_prices_xml xml c sid).2).bind (fun m => m.store_id))) = false := by
      show optTruthy (pyOr r.store_id (parse_prices_xml xml c sid).2.store_id) = false
      rw [pyOr, hft]
      simpa using hmeta
    obtain ⟨h1, -, h3⟩ := hskip rid (some (parse_prices_xml xml c sid).2) st r hext
    exact ⟨h1, h3⟩

/-- C10 witness: the empty-id no-op and the null-storeId conclusion applied
to a concrete price XML with no store id anywhere. -/
theorem C10_no_store_id_yields_null_storeId_witness :
    upsert_store DBState.empty 1 none none none none = (DBState.empty, none)
  ∧ (saveRow 1
        (some (parse_prices_xml
          (some (XElem.mk "Prices" none
            [XElem.mk "Item" none
              [XElem.mk "ItemCode" (some "7290000000001") [],
               XElem.mk "ItemPrice" (some "5.90") []]])) "shufersal" none).2)
        ⟨DBState.empty, [], 0⟩
        { name := none, barcode := "7290000000001", date := none,
          price := "5.90", company := "shufersal", store_id := none,
          is_on_sale := false, brand := none, unit := none,
          quantity := none, is_weighted := false, image_url := none }).db.stores
      = DBState.empty.stores :=
  ⟨C10_no_store_id_yields_null_storeId.1 DBState.empty 1 none none none,
   (C10_no_store_id_yields_null_storeId.2.2.2.2
      (some (XElem.mk "Prices" none
        [XElem.mk "Item" none
          [XElem.mk "ItemCode" (some "7290000000001") [],
           XElem.mk "ItemPrice" (some "5.90") []]])) "shufersal" none 1
      ⟨DBState.empty, [], 0⟩
      { name := none, barcode := "7290000000001", date := none,
        price := "5.90", company := "shufersal", store_id := none,
        is_on_sale := false, brand := none, unit := none,
        quantity := none, is_weighted := false, image_url := none }
      (by decide) (by decide)).1⟩

/-- One download-loop step never removes a hash from the dedup set. -/
theorem processFetched_mem_hashes (md5 : Bytes → String) (rid : String)
    (st : AdapterState) (o : Option (Bytes × String)) (h : String)
    (hm : h ∈ st.seen_hashes) : h ∈ (processFetched md5 rid st o).seen_hashes := by
  cases o with
  | none => exact hm
  | some df =>
      obtain ⟨data, fn⟩ := df
      by_cases hh : md5 data ∈ st.seen_hashes
      · simpa [processFetched, hh] using hm
      · by_cases hn : (rid ++ "/" ++ lowerStr fn) ∈ st.seen_names
        · simpa [processFetched, hh, hn] using hm
        · simp only [processFetched, if_neg hh, if_neg hn]
          exact List.mem_cons_of_mem _ hm

/-- The download loop never removes a hash from the dedup set. -/
theorem runLinks_mem_hashes (md5 : Bytes → String) (rid : String)
    (l : List (Option (Bytes × String))) (st : AdapterState) (h : String)
    (hm : h ∈ st.seen_hashes) : h ∈ (runLinks md5 rid st l).seen_hashes := by
  induction l generalizing st with
  | nil => exact hm
  | cons o l ih => exact ih _ (processFetched_mem_hashes md5 rid st o h hm)

/-- C4: the dedup discipline of the download loop. A fetched file is
handed to parsing only when both dedup keys are fresh: a hit on either the
content-hash set or the normalized-name set increments `skipped_dupes` by
exactly one and changes nothing else (first conjunct); a fresh file is
processed, downloads count up, and both its keys enter the shared sets
(second conjunct); hashes only accumulate over a run (third conjunct); and
therefore re-downloading a blob that was processed earlier in the same
retailer run — across any interleaving and any source boundary, since the
sets are shared — is skipped with `skipped_dupes` incremented by exactly
one and nothing added to the processed list (fourth conjunct). -/
theorem C4_dedup_both_keys :
    (∀ (md5 : Bytes → String) (rid : String) (st : AdapterState)
       (data : Bytes) (fn : String),
        (md5 data ∈ st.seen_hashes ∨ (rid ++ "/" ++ lowerStr fn) ∈ st.seen_names) →
        processFetched md5 rid st (some (data, fn))
          = { st with skipped_dupes := st.skipped_dupes + 1 })
  ∧ (∀ (md5 : Bytes → String) (rid : String) (st : AdapterState)
       (data : Bytes) (fn : String),
        md5 data ∉ st.seen_hashes →
        (rid ++ "/" ++ lowerStr fn) ∉ st.seen_names →
        processFetched md5 rid st (some (data, fn))
          = { st with
              seen_hashes := md5 data :: st.seen_hashes
              seen_names := (rid ++ "/" ++ lowerStr fn) :: st.seen_names
              processed := st.processed ++ [(fn, data)]
              files_downloaded := st.files_downloaded + 1 })
  ∧ (∀ (md5 : Bytes → String) (rid : String)
       (l : List (Option (Bytes × String))) (st : AdapterState) (h : String),
        h ∈ st.seen_hashes → h ∈ (runLinks md5 rid st l).seen_hashes)
  ∧ (∀ (md5 : Bytes → String) (rid : String) (st : AdapterState)
       (pre mid : List (Option (Bytes × String))) (data : Bytes) (fn fn2 : String),
        md5 data ∉ (runLinks md5 rid st pre).seen_hashes →
        (rid ++ "/" ++ lowerStr fn) ∉ (runLinks md5 rid st pre).seen_names →
        runLinks md5 rid st (pre ++ some (data, fn) :: (mid ++ [some (data, fn2)]))
          = { runLinks md5 rid st (pre ++ some (data, fn) :: mid) with
              skipped_dupes :=
                (runLinks md5 rid st (pre ++ some (data, fn) :: mid)).skipped_dupes + 1 }) := by
  have hdup : ∀ (md5 : Bytes → String) (rid : String) (st : AdapterState)
      (data : Bytes) (fn : String),
      (md5 data ∈ st.seen_hashes ∨ (rid ++ "/" ++ lowerStr fn) ∈ st.seen_names) →
      processFetched md5 rid st (some (data, fn))
        = { st with skipped_dupes := st.skipped_dupes + 1 } := by
    intro md5 rid st data fn h
    by_cases hh : md5 data ∈ st.seen_hashes
    · simp [processFetched, hh]
    · rcases h with h | h
      · exact absurd h hh
      · simp [processFetched, hh, h]
  have hfresh : ∀ (md5 : Bytes → String) (rid : String) (st : AdapterState)
      (data : Bytes) (fn : String),
      md5 data ∉ st.seen_hashes →
      (rid ++ "/" ++ lowerStr fn) ∉ st.seen_names →
      processFetched md5 rid st (some (data, fn))
        = { st with
            seen_hashes := md5 data :: st.seen_hashes
            seen_names := (rid ++ "/" ++ lowerStr fn) :: st.seen_names
            processed := st.processed ++ [(fn, data)]
            files_downloaded := st.files_downloaded + 1 } := by
    intro md5 rid st data fn h1 h2
    simp [processFetched, h1, h2]
  refine ⟨hdup, hfresh, runLinks_mem_hashes, ?_⟩
  intro md5 rid st pre mid data fn fn2 hh hn
  have hsplit : pre ++ some (data, fn) :: (mid ++ [some (data, fn2)])
      = (pre ++ some (data, fn) :: mid) ++ [some (data, fn2)] := by
    simp
  rw [hsplit]
  have hfold : ∀ (l1 l2 : List (Option (Bytes × String))) (s : AdapterState),
      runLinks md5 rid s (l1 ++ l2) = runLinks md5 rid (runLinks md5 rid s l1) l2 := by
    intro l1 l2 s
    simp [runLinks, List.foldl_append]
  rw [hfold]
  have hmem : md5 data ∈ (runLinks md5 rid st (pre ++ some (data, fn) :: mid)).seen_hashes := by
    rw [hfold]
    have hstep : runLinks md5 rid (runLinks md5 rid st pre) (some (data, fn) :: mid)
        = runLinks md5 rid
            (processFetched md5 rid (runLinks md5 rid st pre) (some (data, fn))) mid := by
      simp [runLinks]
    rw [hstep, hfresh md5 rid _ data fn hh hn]
    exact runLinks_mem_hashes md5 rid mid _ _ (List.mem_cons_self _ _)
  calc runLinks md5 rid (runLinks md5 rid st (pre ++ some (data, fn) :: mid))
        [some (data, fn2)]
      = processFetched md5 rid (runLinks md5 rid st (pre ++ some (data, fn) :: mid))
          (some (data, fn2)) := by simp [runLinks]
    _ = _ := hdup md5 rid _ data fn2 (Or.inl hmem)

/-- C4 witness: the same blob fetched twice in one run (second conjunct of
the run: even under a different filename) is skipped exactly once. -/
theorem C4_dedup_both_keys_witness :
    runLinks (fun _ => "h") "rami-levy" ⟨[], [], 0, 0, []⟩
        ([] ++ some ([1], "A.gz") :: ([] ++ [some ([1], "b.gz")]))
      = { runLinks (fun _ => "h") "rami-levy" ⟨[], [], 0, 0, []⟩
            ([] ++ some ([1], "A.gz") :: []) with
          skipped_dupes :=
            (runLinks (fun _ => "h") "rami-levy" ⟨[], [], 0, 0, []⟩
              ([] ++ some ([1], "A.gz") :: [])).skipped_dupes + 1 } :=
  C4_dedup_both_keys.2.2.2 (fun _ => "h") "rami-levy" ⟨[], [], 0, 0, []⟩
    [] [] [1] "A.gz" "b.gz" (by decide) (by decide)

/-- Elements of a priority insertion are the new element or old ones. -/
theorem mem_insertByPriorityDesc {x s : Source} {l : List Source}
    (h : x ∈ insertByPriorityDesc s l) : x = s ∨ x ∈ l := by
  induction l with
  | nil => simpa [insertByPriorityDesc] using h
  | cons t ts ih =>
      by_cases hc : t.priority ≤ s.priority
      · rw [insertByPriorityDesc, if_pos hc] at h
        rcases List.mem_cons.mp h with h | h
        · exact Or.inl h
        · exact Or.inr h
      · rw [insertByPriorityDesc, if_neg hc] at h
        rcases List.mem_cons.mp h with h | h
        · exact Or.inr (h ▸ List.mem_cons_self _ _)
        · rcases ih h with h | h
          · exact Or.inl h
          · exact Or.inr (List.mem_cons_of_mem _ h)

/-- Priority insertion preserves descending sortedness. -/
theorem pairwise_insertByPriorityDesc (s : Source) (l : List Source)
    (h : l.Pairwise (fun a b => b.priority ≤ a.priority)) :
    (insertByPriorityDesc s l).Pairwise (fun a b => b.priority ≤ a.priority) := by
  induction l with
  | nil => simp [insertByPriorityDesc]
  | cons t ts ih =>
      by_cases hc : t.priority ≤ s.priority
      · rw [insertByPriorityDesc, if_pos hc]
        refine List.Pairwise.cons ?_ h
        intro x hx
        rcases List.mem_cons.mp hx with rfl | hx
        · exact hc
        · exact le_trans (List.rel_of_pairwise_cons h hx) hc
      · rw [insertByPriorityDesc, if_neg hc]
        refine List.Pairwise.cons ?_ (ih (List.Pairwise.of_cons h))
        intro x hx
        rcases mem_insertByPriorityDesc hx with rfl | hx
        · exact le_of_lt (lt_of_not_le hc)
        · exact List.rel_of_pairwise_cons h hx

/-- The stable priority sort is sorted by descending priority. -/
theorem pairwise_sortByPriorityDesc (l : List Source) :
    (sortByPriorityDesc l).Pairwise (fun a b => b.priority ≤ a.priority) := by
  induction l with
  | nil => simp [sortByPriorityDesc]
  | cons s ss ih => exact pairwise_insertByPriorityDesc s _ ih

/-- The sources visited by the per-source loop form a sublist of the input
order. -/
theorem sourceLoop_fst_sublist (run : Source → Nat) (l : List Source) :
    ((sourceLoop run l).map Prod.fst).Sublist l := by
  induction l with
  | nil => simp [sourceLoop]
  | cons s rest ih =>
      simp only [sourceLoop]
      split_ifs with h1 h2
      · exact ih.cons _
      · simp
      · simpa using ih.cons₂ s

/-- In the per-source loop, a source that downloaded at least one file is
the last one visited. -/
theorem sourceLoop_success_last (run : Source → Nat) (l : List Source) :
    ∀ (pre post : List (Source × Nat)) (s : Source) (n : Nat),
      sourceLoop run l = pre ++ (s, n) :: post → 0 < n → post = [] := by
  induction l with
  | nil =>
      intro pre post s n h _
      rw [sourceLoop] at h
      cases pre <;> simp at h
  | cons a rest ih =>
      intro pre post s n h hn
      simp only [sourceLoop] at h
      split_ifs at h with h1 h2
      · exact ih pre post s n h hn
      · cases pre with
        | nil =>
            simp only [List.nil_append] at h
            exact (List.cons_eq_cons.mp h).2.symm
        | cons p pre' =>
            simp only [List.cons_append] at h
            have h2' := (List.cons_eq_cons.mp h).2
            cases pre' <;> simp at h2'
      · cases pre with
        | nil =>
            simp only [List.nil_append] at h
            have hh := (List.cons_eq_cons.mp h).1
            have hn' : n = run a := (congrArg Prod.snd hh).symm
            rw [hn'] at hn
            exact absurd hn h2
        | cons p pre' =>
            simp only [List.cons_append] at h
            exact ih pre' post s n (List.cons_eq_cons.mp h).2 hn

/-- C2: the orchestrator's source iteration visits sources in descending
priority order (its visited list is pairwise so ordered), and any visited
source that downloaded at least one file is the last visited — no source
after the first successful one is ever invoked. -/
theorem C2_priority_order_and_short_circuit :
    (∀ (run : Source → Nat) (r : Retailer),
        (crawl_retailer run r).Pairwise
          (fun a b => b.1.priority ≤ a.1.priority))
  ∧ (∀ (run : Source → Nat) (r : Retailer) (pre post : List (Source × Nat))
       (s : Source) (n : Nat),
        crawl_retailer run r = pre ++ (s, n) :: post → 0 < n → post = []) := by
  constructor
  · intro run r
    rw [crawl_retailer]
    have hsub := sourceLoop_fst_sublist run
      (sortByPriorityDesc (if r.sources.isEmpty then
        (if r.url = "" then []
         else [{ url := r.url, host := r.host, priority := 0,
                 adapter := none, creds_key := none }]) else r.sources))
    have hsorted := pairwise_sortByPriorityDesc
      (if r.sources.isEmpty then
        (if r.url = "" then []
         else [{ url := r.url, host := r.host, priority := 0,
                 adapter := none, creds_key := none }]) else r.sources)
    have := hsorted.sublist hsub
    exact (List.pairwise_map).mp this
  · intro run r pre post s n h hn
    rw [crawl_retailer] at h
    exact sourceLoop_success_last run _ pre post s n h hn

/-- C2 witness: a retailer with two sources (priority 10 and 5) whose
priority-10 source downloads two files visits only that source; the
theorem's short-circuit clause applied at this input certifies that
nothing follows it, and the order clause certifies the visited order. -/
theorem C2_priority_order_and_short_circuit_witness :
    (crawl_retailer
        (fun s => if s.priority = 10 then 2 else 5)
        { id := "victory", name := "Victory", enabled := true,
          sources :=
            [{ url := "http://low", host := "low", priority := 5,
               adapter := none, creds_key := none },
             { url := "http://high", host := "high", priority := 10,
               adapter := none, creds_key := none }],
          url := "", host := "", adapter := none, tenantKey := none }).Pairwise
      (fun a b => b.1.priority ≤ a.1.priority)
  ∧ ([] : List (Source × Nat)) = [] := by
  constructor
  · exact C2_priority_order_and_short_circuit.1 _ _
  · exact C2_priority_order_and_short_circuit.2
      (fun s => if s.priority = 10 then 2 else 5)
      { id := "victory", name := "Victory", enabled := true,
        sources :=
          [{ url := "http://low", host := "low", priority := 5,
             adapter := none, creds_key := none },
           { url := "http://high", host := "high", priority := 10,
             adapter := none, creds_key := none }],
        url := "", host := "", adapter := none, tenantKey := none }
      [] []
      { url := "http://high", host := "high", priority := 10,
        adapter := none, creds_key := none } 2
      (by decide) (by decide)

/-- Counting under an index update: the count of the updated list plus the
weight of the old element equals the old count plus the weight of the new
element. -/
theorem countP_set (p : TaskStatus → Bool) (s : RunState) :
    ∀ (i : Nat) (a b : TaskStatus), s.get? i = some a →
      (s.set i b).countP p + (if p a then 1 else 0)
        = s.countP p + (if p b then 1 else 0) := by
  induction s with
  | nil => intro i a b h; simp at h
  | cons t ts ih =>
      intro i a b h
      cases i with
      | zero =>
          simp only [List.get?] at h
          cases h
          simp only [List.set, List.countP_cons]
          omega
      | succ i =>
          simp only [List.get?] at h
          simp only [List.set, List.countP_cons]
          have := ih i a b h
          omega

/-- `holders` as a `countP`. -/
theorem holders_eq_countP (s : RunState) :
    holders s = s.countP TaskStatus.holdsPermit := by
  simp [holders, List.countP_eq_length_filter]

/-- One scheduler step never pushes the permit count above 3. -/
theorem holders_le_of_step (work : Nat → Nat) (s s' : RunState)
    (hstep : SemStep work s s') (h3 : holders s ≤ 3) : holders s' ≤ 3 := by
  cases hstep with
  | acquire i h hcap =>
      have hc := countP_set TaskStatus.holdsPermit s i _ (.running (work i)) h
      rw [holders_eq_countP] at *
      simp [TaskStatus.holdsPermit] at hc
      omega
  | advance i k h =>
      have hc := countP_set TaskStatus.holdsPermit s i _ (.running k) h
      rw [holders_eq_countP] at *
      simp [TaskStatus.holdsPermit] at hc
      omega
  | finish i h =>
      have hc := countP_set TaskStatus.holdsPermit s i _ .settled h
      rw [holders_eq_countP] at *
      simp [TaskStatus.holdsPermit] at hc
      omega

/-- A scheduler step preserves the number of tasks. -/
theorem length_of_step (work : Nat → Nat) (s s' : RunState)
    (hstep : SemStep work s s') : s'.length = s.length := by
  cases hstep <;> simp

/-- The measure under an index update. -/
theorem runMeasure_set (work : Nat → Nat) (s : RunState) :
    ∀ (n i : Nat) (a b : TaskStatus), s.get? i = some a →
      runMeasure work n (s.set i b) + statusWeight (work (n + i)) a
        = runMeasure work n s + statusWeight (work (n + i)) b := by
  induction s with
  | nil => intro n i a b h; simp at h
  | cons t ts ih =>
      intro n i a b h
      cases i with
      | zero =>
          simp only [List.get?] at h
          cases h
          simp only [List.set, runMeasure, Nat.add_zero]
          omega
      | succ i =>
          simp only [List.get?] at h
          simp only [List.set, runMeasure]
          have := ih (n + 1) i a b h
          have harith : n + 1 + i = n + (i + 1) := by omega
          rw [harith] at this
          omega

/-- Every scheduler step decreases the measure by exactly one, so every
execution of `run_all`'s task system is finite. -/
theorem runMeasure_step (work : Nat → Nat) (s s' : RunState)
    (hstep : SemStep work s s') :
    runMeasure work 0 s' + 1 = runMeasure work 0 s := by
  cases hstep with
  | acquire i h hcap =>
      have hm := runMeasure_set work s 0 i _ (.running (work i)) h
      simp only [statusWeight, Nat.zero_add] at hm
      omega
  | advance i k h =>
      have hm := runMeasure_set work s 0 i _ (.running k) h
      simp only [statusWeight, Nat.zero_add] at hm
      omega
  | finish i h =>
      have hm := runMeasure_set work s 0 i _ .settled h
      simp only [statusWeight, Nat.zero_add] at hm
      omega

/-- Progress: while some task is not settled, the event loop has an
enabled step — there is no deadlock state short of full completion. -/
theorem semStep_progress (work : Nat → Nat) (s : RunState)
    (h : ∃ t ∈ s, t ≠ TaskStatus.settled) : ∃ s', SemStep work s s' := by
  by_cases hr : ∃ i k, s.get? i = some (.running k)
  · obtain ⟨i, k, hk⟩ := hr
    cases k with
    | zero => exact ⟨s.set i .settled, SemStep.finish s i hk⟩
    | succ k => exact ⟨s.set i (.running k), SemStep.advance s i k hk⟩
  · obtain ⟨t, ht, hne⟩ := h
    have hzero : holders s = 0 := by
      rw [holders_eq_countP]
      rw [List.countP_eq_zero]
      intro a ha
      cases a with
      | waiting => simp [TaskStatus.holdsPermit]
      | settled => simp [TaskStatus.holdsPermit]
      | running k =>
          exfalso
          obtain ⟨i, hi⟩ := List.mem_iff_get?.mp ha
          exact hr ⟨i, k, hi⟩
    cases t with
    | running k =>
        exfalso
        obtain ⟨i, hi⟩ := List.mem_iff_get?.mp ht
        exact hr ⟨i, k, hi⟩
    | settled => exact absurd rfl hne
    | waiting =>
        obtain ⟨i, hi⟩ := List.mem_iff_get?.mp ht
        exact ⟨s.set i (.running (work i)),
          SemStep.acquire s i hi (by omega)⟩

/-- C9: over any retailer list and any (finite) per-retailer workload,
every state reachable from `run_all`'s start state holds at most 3
semaphore permits — at no point do more than 3 per-retailer workers (and
hence browser contexts) exist concurrently (first conjunct); the task
count is preserved, so the gathered result list covers exactly the
enabled retailers (second conjunct); every step decreases a finite
measure, so no execution runs forever (third conjunct); from any state
with an unfinished task a step is enabled (fourth conjunct); hence every
maximal execution ends in the state where every enabled retailer's worker
has settled (fifth conjunct). -/
theorem C9_bounded_fanout_and_completion :
    (∀ (work : Nat → Nat) (retailers : List Retailer) (s : RunState),
        ReachableRun work retailers s → holders s ≤ 3)
  ∧ (∀ (work : Nat → Nat) (retailers : List Retailer) (s : RunState),
        ReachableRun work retailers s →
        s.length = (enabledRetailers retailers).length)
  ∧ (∀ (work : Nat → Nat) (s s' : RunState),
        SemStep work s s' → runMeasure work 0 s' + 1 = runMeasure work 0 s)
  ∧ (∀ (work : Nat → Nat) (s : RunState),
        (∃ t ∈ s, t ≠ TaskStatus.settled) → ∃ s', SemStep work s s')
  ∧ (∀ (work : Nat → Nat) (retailers : List Retailer) (s : RunState),
        ReachableRun work retailers s → (¬ ∃ s', SemStep work s s') →
        ∀ t ∈ s, t = TaskStatus.settled) := by
  refine ⟨?_, ?_, runMeasure_step, semStep_progress, ?_⟩
  · intro work retailers s hreach
    induction hreach with
    | refl =>
        have : holders (initState retailers) = 0 := by
          rw [holders_eq_countP, List.countP_eq_zero]
          intro a ha
          have := List.eq_of_mem_replicate ha
          simp [this, TaskStatus.holdsPermit]
        omega
    | tail hsteps hstep ih => exact holders_le_of_step work _ _ hstep ih
  · intro work retailers s hreach
    induction hreach with
    | refl => simp [initState]
    | tail hsteps hstep ih => rw [length_of_step work _ _ hstep, ih]
  · intro work retailers s hreach hstuck t ht
    by_contra hne
    exact hstuck (semStep_progress work s ⟨t, ht, hne⟩)

/-- C9 witness: the permit bound at the start state of a 7-retailer run,
and an enabled step from a one-task state. -/
theorem C9_bounded_fanout_and_completion_witness :
    holders (initState (List.replicate 7
      { id := "r", name := "R", enabled := true, sources := [],
        url := "http://r", host := "r", adapter := none, tenantKey := none })) ≤ 3
  ∧ ∃ s', SemStep (fun _ => 1) [TaskStatus.waiting] s' :=
  ⟨C9_bounded_fanout_and_completion.1 (fun _ => 1) _ _ Relation.ReflTransGen.refl,
   C9_bounded_fanout_and_completion.2.2.2.1 (fun _ => 1) [TaskStatus.waiting]
     ⟨TaskStatus.waiting, by simp, by simp⟩⟩
